import Mathlib

/-!
Verification of the Kepler power-attribution core against its specification.

The Go source is shallowly embedded as follows:

* Go `map[K]V` values become association lists `List (K × V)`; Go map
  semantics (unique keys, insert-or-replace, delete) are captured by the
  `alookup`/`aupdate` operations below plus `keysNodup` hypotheses where a
  theorem needs uniqueness of keys.
* Go `float64` quantities (CPU times, energy deltas) and the `Energy`/`Power`
  wrapper types become `ℚ`, so arithmetic is exact; none of the verified
  claims depends on floating-point rounding.
* Fallible collaborator calls (`CPUTime()`, `Comm()`, container/VM lookup,
  `GetAliveContainers()`) become `Except String` values carried by the input,
  so one `ProcInfo` record represents one process as the process-table
  reader observes it during a cycle.
* Pointer aliasing in the Go informer (the published `Running` maps hold
  pointers into the caches, so later in-cycle mutations of a cache entry are
  visible through the published map) is modelled by keeping only the *keys*
  of the running maps during the per-process loop and materialising the
  published maps from the final caches, which is observationally identical.
-/

namespace Kepler

/-! ### Association-list operations mirroring Go map semantics -/

section AssocOps

variable {κ : Type} {ν : Type} [DecidableEq κ]

/-- Lookup in an association list: the value of the first pair whose key
matches, mirroring `m[k]` on a Go map (keys are unique in a Go map). -/
def alookup (k : κ) : List (κ × ν) → Option ν
  | [] => none
  | (k', v) :: rest => if k' = k then some v else alookup k rest

/-- Insert-or-replace in an association list, mirroring `m[k] = v` on a Go
map: replaces the first pair with the given key, appends if absent. -/
def aupdate (k : κ) (v : ν) : List (κ × ν) → List (κ × ν)
  | [] => [(k, v)]
  | (k', v') :: rest =>
    if k' = k then (k, v) :: rest else (k', v') :: aupdate k v rest

/-- The keys of an association list are pairwise distinct (always true of a
Go map). -/
@[reducible]
def keysNodup (l : List (κ × ν)) : Prop := (l.map Prod.fst).Nodup

end AssocOps

/-! ### Resource informer data model (src/internal/resource) -/

namespace Resource

/-- `resource.ProcessType` (src/internal/resource, types referenced by
informer.go). -/
inductive ProcessType where
  | UnknownProcess
  | RegularProcess
  | ContainerProcess
  | VMProcess
deriving DecidableEq, Repr

/-- `resource.Container` (identity and CPU accounting fields used by
informer.go; `Clone` is the identity on this value model). -/
structure Container where
  ID : String
  Name : String
  CPUTotalTime : ℚ
  CPUTimeDelta : ℚ
deriving DecidableEq, Repr

/-- `resource.VirtualMachine` (identity and CPU accounting fields used by
informer.go). -/
structure VirtualMachine where
  ID : String
  Name : String
  Hypervisor : String
  CPUTotalTime : ℚ
  CPUTimeDelta : ℚ
deriving DecidableEq, Repr

/-- `resource.Process`: the per-PID cache entry maintained by the informer.
The Go field `Type` is spelled `ptype` because `Type` is reserved in Lean. -/
structure Process where
  PID : ℕ
  Comm : String
  Exe : String
  CPUTotalTime : ℚ
  CPUTimeDelta : ℚ
  ptype : ProcessType
  Container : Option Container
  VirtualMachine : Option VirtualMachine
deriving DecidableEq, Repr

/-- One process as observed through the process-table reader during one
cycle: the PID plus the outcomes of the fallible per-process collaborator
calls (`CPUTime()`, `Comm()`, `Executable()`, `containerInfoFromProc`,
`vmInfoFromProc`). -/
structure ProcInfo where
  pid : ℕ
  cpuTime : Except String ℚ
  comm : Except String String
  executable : Except String String
  containerInfo : Except String (Option Container)
  vmInfo : Except String (Option VirtualMachine)

/-- `resource.Processes`: the published running/terminated process sets. -/
structure Processes where
  NodeCPUTimeDelta : ℚ
  Running : List (ℕ × Process)
  Terminated : List (ℕ × Process)
deriving DecidableEq, Repr

/-- `resource.Containers`: the published running/terminated container sets. -/
structure Containers where
  NodeCPUTimeDelta : ℚ
  Running : List (String × Container)
  Terminated : List (String × Container)
deriving DecidableEq, Repr

/-- `resource.VirtualMachines`: the published running/terminated VM sets. -/
structure VirtualMachines where
  NodeCPUTimeDelta : ℚ
  Running : List (String × VirtualMachine)
  Terminated : List (String × VirtualMachine)
deriving DecidableEq, Repr

/-- The informer's mutable caches (`procCache`, `containerCache`,
`vmCache` of `resourceInformer`). -/
structure InformerState where
  procCache : List (ℕ × Process)
  containerCache : List (String × Container)
  vmCache : List (String × VirtualMachine)
deriving DecidableEq, Repr

/-- Everything `Refresh` publishes for one cycle, plus its joined error. -/
structure RefreshResult where
  processes : Processes
  containers : Containers
  vms : VirtualMachines
  refreshErrs : Option String
deriving DecidableEq, Repr

/-- The `1e-12` threshold from `populateProcessFields`. -/
def cpuDeltaEpsilon : ℚ := 1 / 1000000000000

/-- `errors.Join` on two non-nil errors (message-level model). -/
def joinErrs (a b : String) : String := a ++ "\n" ++ b

/-- Accumulation `refreshErrs = errors.Join(refreshErrs, err)` where the
accumulator may still be nil. -/
def joinErrOpt (acc : Option String) (e : String) : Option String :=
  match acc with
  | none => some e
  | some a => some (joinErrs a e)

/-- `resource.ProcessTypeInfo`. -/
structure ProcessTypeInfo where
  ptype : ProcessType
  Container : Option Container
  VM : Option VirtualMachine
deriving DecidableEq, Repr

/-- `computeTypeInfoFromProc` (informer.go): the container lookup and the VM
lookup run concurrently; both results are awaited, then the Go `switch` picks
the container result first, the VM result second, `Regular` when both lookups
succeeded with no result, and the joined errors otherwise.  The fork-join has
no shared state, so the concurrent fan-out is observationally this pure
function of the two results. -/
def computeTypeInfoFromProc (proc : ProcInfo) : Except String ProcessTypeInfo :=
  match proc.containerInfo, proc.vmInfo with
  | .ok (some container), _ => .ok ⟨.ContainerProcess, some container, none⟩
  | _, .ok (some vm) => .ok ⟨.VMProcess, none, some vm⟩
  | .ok none, .ok none => .ok ⟨.RegularProcess, none, none⟩
  | .error ce, .error ve => .error (joinErrs ce ve)
  | .error ce, .ok none => .error ce
  | .ok none, .error ve => .error ve

/-- `populateProcessFields` (informer.go).  The Go function mutates `p` in
place and returns an error; the model returns the (possibly partially)
updated process together with the optional error, because on the cached path
the partial mutation stays visible in the cache even when an error is
returned. -/
def populateProcessFields (p : Process) (proc : ProcInfo) : Process × Option String :=
  match proc.cpuTime with
  | .error e => (p, some e)
  | .ok cpuTotalTime =>
    let p := { p with CPUTimeDelta := cpuTotalTime - p.CPUTotalTime,
                      CPUTotalTime := cpuTotalTime }
    if ¬p.Comm = "" ∧ p.CPUTimeDelta ≤ cpuDeltaEpsilon then (p, none)
    else
      match proc.comm with
      | .error e => (p, some ("failed to get process comm: " ++ e))
      | .ok comm =>
        let p := { p with Comm := comm }
        match proc.executable with
        | .error e => (p, some ("failed to get process executable: " ++ e))
        | .ok exe =>
          let p := { p with Exe := exe }
          if p.ptype = .UnknownProcess then
            match computeTypeInfoFromProc proc with
            | .error e => (p, some ("failed to detect process type: " ++ e))
            | .ok info =>
              ({ p with ptype := info.ptype, Container := info.Container,
                        VirtualMachine := info.VM }, none)
          else (p, none)

/-- The zero-valued `Process` a first-seen PID starts from
(`p := &Process{PID: proc.PID()}` in `newProcess`). -/
def initProcess (pid : ℕ) : Process :=
  { PID := pid, Comm := "", Exe := "", CPUTotalTime := 0,
    CPUTimeDelta := 0, ptype := .UnknownProcess, Container := none,
    VirtualMachine := none }

/-- `newProcess` (informer.go): build a fresh `Process` for a first-seen PID;
on any field error nothing is produced (the caller does not cache it). -/
def newProcess (proc : ProcInfo) : Except String Process :=
  match populateProcessFields (initProcess proc.pid) proc with
  | (_, some e) => .error e
  | (p, none) => .ok p

/-- `updateProcessCache` (informer.go): update the cached entry in place (the
mutation stays in the cache even when an error is returned), or create and
cache a new entry; a failed creation leaves the cache untouched. -/
def updateProcessCache (procCache : List (ℕ × Process)) (proc : ProcInfo) :
    List (ℕ × Process) × Except String Process :=
  match alookup proc.pid procCache with
  | some cached =>
    match populateProcessFields cached proc with
    | (p, none) => (aupdate proc.pid p procCache, .ok p)
    | (p, some e) => (aupdate proc.pid p procCache, .error e)
  | none =>
    match newProcess proc with
    | .error e => (procCache, .error e)
    | .ok p => (aupdate proc.pid p procCache, .ok p)

/-- The body of `updateContainerCache` once the container is known: start
from the cached entry if present, else from a clone of the process's
container reference; reset the running delta when asked; then accumulate the
member process's delta into both the delta and the total. -/
def containerAccum (prev : Option Container) (c : Container) (delta : ℚ)
    (reset : Bool) : Container :=
  let cached := prev.getD c
  let cached := if reset then { cached with CPUTimeDelta := 0 } else cached
  { cached with
    CPUTimeDelta := cached.CPUTimeDelta + delta,
    CPUTotalTime := cached.CPUTotalTime + delta }

/-- `updateContainerCache` (informer.go): clone-on-miss, reset the running
CPU-time delta when the container is first seen this cycle, then accumulate
the member process's delta into both the delta and the total. -/
def updateContainerCache (containerCache : List (String × Container))
    (proc : Process) (resetCPUTime : Bool) : List (String × Container) :=
  match proc.Container with
  | none => containerCache
  | some c =>
    aupdate c.ID
      (containerAccum (alookup c.ID containerCache) c proc.CPUTimeDelta resetCPUTime)
      containerCache

/-- The body of `updateVMCache` once the VM is known (same shape as
`containerAccum`). -/
def vmAccum (prev : Option VirtualMachine) (vm : VirtualMachine) (delta : ℚ)
    (reset : Bool) : VirtualMachine :=
  let cached := prev.getD vm
  let cached := if reset then { cached with CPUTimeDelta := 0 } else cached
  { cached with
    CPUTimeDelta := cached.CPUTimeDelta + delta,
    CPUTotalTime := cached.CPUTotalTime + delta }

/-- `updateVMCache` (informer.go): same reset-then-accumulate shape as
`updateContainerCache`, for virtual machines. -/
def updateVMCache (vmCache : List (String × VirtualMachine))
    (proc : Process) (resetCPUTime : Bool) : List (String × VirtualMachine) :=
  match proc.VirtualMachine with
  | none => vmCache
  | some vm =>
    aupdate vm.ID
      (vmAccum (alookup vm.ID vmCache) vm proc.CPUTimeDelta resetCPUTime)
      vmCache

/-- The accumulator of the per-process loop inside `Refresh`.  Go's
`procsRunning`, `containersRunning` and `vmsRunning` maps hold pointers into
the caches, so only their key sets are tracked here (`runningPids`,
`containersSeen`, `vmsSeen`, each in first-insertion order); the published
maps are materialised from the final caches after the loop. -/
structure RefreshAcc where
  procCache : List (ℕ × Process)
  containerCache : List (String × Container)
  vmCache : List (String × VirtualMachine)
  runningPids : List ℕ
  containersSeen : List String
  vmsSeen : List String
  refreshErrs : Option String

/-- Container/VM grouping inside the `Refresh` loop body: a successfully
updated process is attributed to its container if it has one, else to its VM
if it has one; the running CPU-time delta of the entity is reset exactly when
the entity enters the running set (the `seen` check on the running map). -/
def accountProcess (acc : RefreshAcc) (proc : Process) : RefreshAcc :=
  match proc.Container with
  | some c =>
    { acc with
      containerCache :=
        updateContainerCache acc.containerCache proc (!decide (c.ID ∈ acc.containersSeen)),
      containersSeen :=
        if c.ID ∈ acc.containersSeen then acc.containersSeen
        else acc.containersSeen ++ [c.ID] }
  | none =>
    match proc.VirtualMachine with
    | some vm =>
      { acc with
        vmCache :=
          updateVMCache acc.vmCache proc (!decide (vm.ID ∈ acc.vmsSeen)),
        vmsSeen :=
          if vm.ID ∈ acc.vmsSeen then acc.vmsSeen
          else acc.vmsSeen ++ [vm.ID] }
    | none => acc

/-- One iteration of the per-process loop in `Refresh` (informer.go): update
the process cache; on error join the error and skip the process, otherwise
mark it running and attribute it to its container or VM. -/
def refreshStep (acc : RefreshAcc) (p : ProcInfo) : RefreshAcc :=
  match updateProcessCache acc.procCache p with
  | (cache, .error e) =>
    { acc with procCache := cache, refreshErrs := joinErrOpt acc.refreshErrs e }
  | (cache, .ok proc) =>
    accountProcess
      { acc with
        procCache := cache,
        runningPids :=
          if p.pid ∈ acc.runningPids then acc.runningPids
          else acc.runningPids ++ [p.pid] }
      proc

/-- `Refresh` (informer.go), given the process-table snapshot `procs` (the
successful result of `AllProcs()`): run the per-process loop, then diff each
cache against its running key set — running entries stay in the cache and are
published as `Running`, the rest are published as `Terminated` and purged —
and compute `NodeCPUTimeDelta` as the sum of the cached CPU-time deltas of
the running processes. -/
def Refresh (st : InformerState) (procs : List ProcInfo) :
    InformerState × RefreshResult :=
  let acc := procs.foldl refreshStep
    ⟨st.procCache, st.containerCache, st.vmCache, [], [], [], none⟩
  let procsRunning := acc.procCache.filter (fun e => decide (e.1 ∈ acc.runningPids))
  let procsTerminated := acc.procCache.filter (fun e => !decide (e.1 ∈ acc.runningPids))
  let nodeCPUDelta := (procsRunning.map (fun e => e.2.CPUTimeDelta)).sum
  let containersRunning :=
    acc.containerCache.filter (fun e => decide (e.1 ∈ acc.containersSeen))
  let containersTerminated :=
    acc.containerCache.filter (fun e => !decide (e.1 ∈ acc.containersSeen))
  let vmsRunning := acc.vmCache.filter (fun e => decide (e.1 ∈ acc.vmsSeen))
  let vmsTerminated := acc.vmCache.filter (fun e => !decide (e.1 ∈ acc.vmsSeen))
  (⟨procsRunning, containersRunning, vmsRunning⟩,
   { processes := ⟨nodeCPUDelta, procsRunning, procsTerminated⟩,
     containers := ⟨nodeCPUDelta, containersRunning, containersTerminated⟩,
     vms := ⟨nodeCPUDelta, vmsRunning, vmsTerminated⟩,
     refreshErrs := acc.refreshErrs })

/-- The entity key a running process's CPU-time delta is accumulated under on
the container side: its container's ID, when it has a container. -/
def containerKey (p : Process) : Option String := (p.Container).map (·.ID)

/-- The entity key a running process's CPU-time delta is accumulated under on
the VM side: its VM's ID, but only when it has no container (the informer
checks the container reference first). -/
def vmKey (p : Process) : Option String :=
  match p.Container with
  | some _ => none
  | none => (p.VirtualMachine).map (·.ID)

end Resource

/-! ### Power attribution engine (src/internal/monitor/vm.go) -/

namespace Monitor

/-- `monitor.Usage`: one zone's attributed `Power`/`Delta`/`Absolute`.  The
Go `Power` (microwatts) and `Energy` (joule-scale) wrapper types are both
modelled as `ℚ`; `Power.MicroWatts()` is then the identity. -/
structure Usage where
  Power : ℚ
  Delta : ℚ
  Absolute : ℚ
deriving DecidableEq, Repr

/-- `monitor.VirtualMachine`: the per-VM power entry of a snapshot, with a
per-zone usage map. -/
structure VMPower where
  ID : String
  Name : String
  Hypervisor : String
  CPUTotalTime : ℚ
  Zones : List (String × Usage)
deriving DecidableEq, Repr

/-- The node side of a `monitor.Snapshot` used by `calculateVMPower`. -/
structure NodeUsage where
  Zones : List (String × Usage)
deriving DecidableEq, Repr

/-- The part of `monitor.Snapshot` that `calculateVMPower` reads and
writes: the node's per-zone usage and the per-VM power map. -/
structure Snapshot where
  Node : NodeUsage
  VirtualMachines : List (String × VMPower)
deriving DecidableEq, Repr

/-- The per-zone body of the loop in `calculateVMPower` (vm.go lines 82-112):
the zero-guard branch writes an all-zero usage; otherwise the CPU-time ratio
apportions the node zone's power and delta, and the absolute total continues
from the previous snapshot when this (VM, zone) pair has one, else starts at
the delta. -/
def vmZoneUsage (nodeCPUTimeDelta : ℚ) (c : Resource.VirtualMachine)
    (nodeZoneUsage : Usage) (prevVM : Option VMPower) (zone : String) : Usage :=
  if nodeZoneUsage.Power = 0 ∨ nodeZoneUsage.Delta = 0 ∨ nodeCPUTimeDelta = 0 then
    { Power := 0, Delta := 0, Absolute := 0 }
  else
    let cpuTimeFrac := c.CPUTimeDelta / nodeCPUTimeDelta
    let power := cpuTimeFrac * nodeZoneUsage.Power
    let delta := cpuTimeFrac * nodeZoneUsage.Delta
    match prevVM with
    | some prev =>
      match alookup zone prev.Zones with
      | some prevUsage => { Power := power, Delta := delta, Absolute := prevUsage.Absolute + delta }
      | none => { Power := power, Delta := delta, Absolute := delta }
    | none => { Power := power, Delta := delta, Absolute := delta }

/-- The per-VM body of `calculateVMPower`: copy the identity fields from the
informer's VM and attribute every node zone. -/
def vmPowerEntry (vms : Resource.VirtualMachines) (prev newSnapshot : Snapshot)
    (id : String) (c : Resource.VirtualMachine) : VMPower :=
  { ID := id, Name := c.Name, Hypervisor := c.Hypervisor,
    CPUTotalTime := c.CPUTotalTime,
    Zones := newSnapshot.Node.Zones.map (fun e =>
      (e.1, vmZoneUsage vms.NodeCPUTimeDelta c e.2
              (alookup id prev.VirtualMachines) e.1)) }

/-- `calculateVMPower` (vm.go): with no running VM the function returns
early and `newSnapshot.VirtualMachines` is left as it was; otherwise it
builds the new per-VM power map from the running set.  `vms` is the
informer's published VM view (`pm.resources.VirtualMachines()`). -/
def calculateVMPower (vms : Resource.VirtualMachines) (prev newSnapshot : Snapshot) :
    List (String × VMPower) :=
  if vms.Running = [] then newSnapshot.VirtualMachines
  else vms.Running.map (fun e => (e.1, vmPowerEntry vms prev newSnapshot e.1 e.2))

end Monitor

/-! ### Aggregation and eviction engine (src/pkg/collector/metric_collector.go) -/

namespace Collector

/-- The eviction hysteresis threshold for containers (metric_collector.go). -/
def maxInactiveContainers : ℤ := 10

/-- Modelled from the spec: the two reserved pseudo-container IDs that
represent system/kernel aggregate processes (`utils.SystemProcessName` and
`utils.KernelProcessName`; the `utils` package is not under src/). -/
def SystemProcessName : String := "system_processes"

/-- Modelled from the spec: see `SystemProcessName`. -/
def KernelProcessName : String := "kernel_processes"

/-- The fields of `stats.ContainerStats` that identify a cached container in
`handleInactiveContainers` (the stats payload itself is irrelevant to
eviction). -/
structure ContainerStats where
  ContainerID : String
  PodName : String
deriving DecidableEq, Repr

/-- `handleInactiveContainers` (metric_collector.go): when the number of
cached containers minus the number found via surviving processes exceeds the
threshold, query the live-container collaborator (`cgroup.GetAliveContainers`,
modelled as the `aliveContainers` input) and delete every cached container
that is not reserved and not in the live set; on a collaborator error, or
when the threshold is not exceeded, the cache is returned unchanged. -/
def handleInactiveContainers (containerStats : List (String × ContainerStats))
    (foundContainer : List String)
    (aliveContainers : Except String (List String)) :
    List (String × ContainerStats) :=
  if (containerStats.length : ℤ) - (foundContainer.length : ℤ)
      ≤ maxInactiveContainers then containerStats
  else
    match aliveContainers with
    | .error _ => containerStats
    | .ok alive =>
      containerStats.filter (fun e =>
        decide (e.1 = SystemProcessName) || decide (e.1 = KernelProcessName) ||
        decide (e.1 ∈ alive))

end Collector

/-! ### Derived definitions used to state and prove the claims -/

namespace Resource

/-- The per-process outcome of one cycle as a function of the cache the
process's PID is looked up in (`updateProcessCache` reads the cache only at
that PID, so with pairwise-distinct PIDs this determines each process's
contribution to the cycle). -/
def cycleOutcome (procCache : List (ℕ × Process)) (e : ProcInfo) :
    Except String Process :=
  (updateProcessCache procCache e).2

/-- The CPU-time delta a process contributes to `NodeCPUTimeDelta` this
cycle: its updated delta when its cache update succeeds, zero otherwise. -/
def cycleDeltaTerm (procCache : List (ℕ × Process)) (e : ProcInfo) : ℚ :=
  match cycleOutcome procCache e with
  | .ok q => q.CPUTimeDelta
  | .error _ => 0

/-- Sum of `w` over the cache entries that are in the running key set and
satisfy `P` (the shape of every per-entity accumulation in `Refresh`). -/
def filterSum (cache : List (ℕ × Process)) (running : List ℕ)
    (P : Process → Bool) (w : Process → ℚ) : ℚ :=
  ((cache.filter (fun e => decide (e.1 ∈ running) && P e.2)).map
    (fun e => w e.2)).sum

/-- Running CPU-time attributed so far to container `id` by the loop. -/
def ctrSumOf (acc : RefreshAcc) (id : String) : ℚ :=
  filterSum acc.procCache acc.runningPids
    (fun p => decide (containerKey p = some id)) (fun p => p.CPUTimeDelta)

/-- Running CPU-time attributed so far to VM `id` by the loop. -/
def vmSumOf (acc : RefreshAcc) (id : String) : ℚ :=
  filterSum acc.procCache acc.runningPids
    (fun p => decide (vmKey p = some id)) (fun p => p.CPUTimeDelta)

/-- Total CPU-time delta of the running processes accumulated so far. -/
def nodeSumOf (acc : RefreshAcc) : ℚ :=
  filterSum acc.procCache acc.runningPids (fun _ => true) (fun p => p.CPUTimeDelta)

/-- The loop accumulator `Refresh` starts from: the three caches plus empty
running key sets and a nil joined error. -/
def initialAcc (st : InformerState) : RefreshAcc :=
  ⟨st.procCache, st.containerCache, st.vmCache, [], [], [], none⟩

/-- The loop accumulator after the whole per-process loop of `Refresh`. -/
def refreshAccOf (st : InformerState) (procs : List ProcInfo) : RefreshAcc :=
  procs.foldl refreshStep (initialAcc st)

/-- The invariant of the per-process loop of `Refresh`: caches have unique
keys (Go map semantics), the running key set is duplicate-free, and every
container/VM already in the running set carries exactly the CPU-time of its
running member processes seen so far, while unseen entities have no running
members yet. -/
structure LoopInv (acc : RefreshAcc) : Prop where
  npc : keysNodup acc.procCache
  ncc : keysNodup acc.containerCache
  nvc : keysNodup acc.vmCache
  nrun : acc.runningPids.Nodup
  ctrSeen : ∀ id ∈ acc.containersSeen,
    ∃ c, alookup id acc.containerCache = some c ∧ c.CPUTimeDelta = ctrSumOf acc id
  ctrUnseen : ∀ id, id ∉ acc.containersSeen → ctrSumOf acc id = 0
  vmSeen : ∀ id ∈ acc.vmsSeen,
    ∃ v, alookup id acc.vmCache = some v ∧ v.CPUTimeDelta = vmSumOf acc id
  vmUnseen : ∀ id, id ∉ acc.vmsSeen → vmSumOf acc id = 0

end Resource

/-! ### Concrete cycle data used by the witnesses and counterexamples -/

namespace Fix

/-- A running VM with CPU-time delta 2s, as the informer publishes it. -/
def c1res : Resource.VirtualMachine := ⟨"vm1", "n", "kvm", 0, 2⟩

/-- Informer VM view: node CPU-time delta 10s, one running VM. -/
def c1vms : Resource.VirtualMachines := ⟨10, [("vm1", c1res)], []⟩

/-- Previous cycle's power entry for the VM: zone pkg has Absolute 5. -/
def c1prevVM : Monitor.VMPower := ⟨"vm1", "n", "kvm", 0, [("pkg", ⟨3, 2, 5⟩)]⟩

/-- Previous snapshot holding `c1prevVM`. -/
def c1prev : Monitor.Snapshot := ⟨⟨[("pkg", ⟨3, 2, 5⟩)]⟩, [("vm1", c1prevVM)]⟩

/-- New snapshot whose pkg zone has Power 0: the zero-guard fires. -/
def c1new : Monitor.Snapshot := ⟨⟨[("pkg", ⟨0, 7, 9⟩)]⟩, []⟩

/-- The VM power entry the guard cycle actually produces: all-zero usage. -/
def c1out : Monitor.VMPower := ⟨"vm1", "n", "kvm", 0, [("pkg", ⟨0, 0, 0⟩)]⟩

/-- New snapshot for the non-guard witness cycle: pkg Power 100, Delta 50. -/
def c1wnew : Monitor.Snapshot := ⟨⟨[("pkg", ⟨100, 50, 500⟩)]⟩, []⟩

/-- Expected witness output: Power 20, Delta 10, Absolute 5 + 10 = 15. -/
def c1wout : Monitor.VMPower := ⟨"vm1", "n", "kvm", 0, [("pkg", ⟨20, 10, 15⟩)]⟩

/-- A running VM with CPU-time delta 2s (zero-guard witness). -/
def c2res : Resource.VirtualMachine := ⟨"vm1", "n", "kvm", 0, 2⟩

/-- Informer VM view for the zero-guard witness. -/
def c2vms : Resource.VirtualMachines := ⟨10, [("vm1", c2res)], []⟩

/-- Empty previous snapshot. -/
def c2prev : Monitor.Snapshot := ⟨⟨[]⟩, []⟩

/-- New snapshot with a zero-power pkg zone. -/
def c2new : Monitor.Snapshot := ⟨⟨[("pkg", ⟨0, 7, 9⟩)]⟩, []⟩

/-- A running VM with CPU-time delta 2s (attribution scenario). -/
def c3res : Resource.VirtualMachine := ⟨"vm1", "n", "kvm", 0, 2⟩

/-- Informer VM view: node CPU-time delta 10s. -/
def c3vms : Resource.VirtualMachines := ⟨10, [("vm1", c3res)], []⟩

/-- Empty previous snapshot (cold start). -/
def c3prev : Monitor.Snapshot := ⟨⟨[]⟩, []⟩

/-- New snapshot: pkg zone Power 100, Delta 50. -/
def c3new : Monitor.Snapshot := ⟨⟨[("pkg", ⟨100, 50, 500⟩)]⟩, []⟩

/-- Expected attribution: ratio 0.2 gives Power 20, Delta 10, Absolute 10. -/
def c3out : Monitor.VMPower := ⟨"vm1", "n", "kvm", 0, [("pkg", ⟨20, 10, 10⟩)]⟩

/-- Empty informer state. -/
def emptyState : Resource.InformerState := ⟨[], [], []⟩

/-- A first-seen process with cumulative CPU time 5s and clean reads. -/
def c4proc : Resource.ProcInfo := ⟨1, .ok 5, .ok "bash", .ok "/bin/bash", .ok none, .ok none⟩

/-- The container two member processes of the C5 cycle belong to. -/
def c5ctr : Resource.Container := ⟨"c1", "web", 0, 0⟩

/-- The VM one member process of the C5 cycle belongs to. -/
def c5vm : Resource.VirtualMachine := ⟨"v1", "vm1", "kvm", 0, 0⟩

/-- Initial state whose container cache still carries a stale delta of 42. -/
def c5st : Resource.InformerState := ⟨[], [("c1", ⟨"c1", "web", 9, 42⟩)], []⟩

/-- Three processes: two in container c1 with deltas 0.4s and 0.6s, one in
VM v1 with delta 7s. -/
def c5procs : List Resource.ProcInfo :=
  [⟨1, .ok (2/5), .ok "a", .ok "/a", .ok (some c5ctr), .ok none⟩,
   ⟨2, .ok (3/5), .ok "b", .ok "/b", .ok (some c5ctr), .ok none⟩,
   ⟨3, .ok 7, .ok "q", .ok "/q", .ok none, .ok (some c5vm)⟩]

/-- A first-seen process whose container and VM lookups both fail. -/
def c8proc : Resource.ProcInfo := ⟨7, .ok 3, .ok "x", .ok "/x", .error "ce", .error "ve"⟩

/-- A first-seen process whose CPU-time read fails. -/
def c10proc : Resource.ProcInfo := ⟨5, .error "boom", .ok "c", .ok "/c", .ok none, .ok none⟩

/-- Twelve cached containers (none reserved). -/
def c6stats : List (String × Collector.ContainerStats) :=
  [("c0", ⟨"c0", "p"⟩), ("c1", ⟨"c1", "p"⟩), ("c2", ⟨"c2", "p"⟩),
   ("c3", ⟨"c3", "p"⟩), ("c4", ⟨"c4", "p"⟩), ("c5", ⟨"c5", "p"⟩),
   ("c6", ⟨"c6", "p"⟩), ("c7", ⟨"c7", "p"⟩), ("c8", ⟨"c8", "p"⟩),
   ("c9", ⟨"c9", "p"⟩), ("c10", ⟨"c10", "p"⟩), ("c11", ⟨"c11", "p"⟩)]

/-- The found set of the counterexample: c0 is found via a running process. -/
def c6found : List String := ["c0"]

/-- Fifteen cached containers for the hysteresis scenario. -/
def c6big : List (String × Collector.ContainerStats) :=
  [("d0", ⟨"d0", "p"⟩), ("d1", ⟨"d1", "p"⟩), ("d2", ⟨"d2", "p"⟩),
   ("d3", ⟨"d3", "p"⟩), ("d4", ⟨"d4", "p"⟩), ("d5", ⟨"d5", "p"⟩),
   ("d6", ⟨"d6", "p"⟩), ("d7", ⟨"d7", "p"⟩), ("d8", ⟨"d8", "p"⟩),
   ("d9", ⟨"d9", "p"⟩), ("d10", ⟨"d10", "p"⟩), ("d11", ⟨"d11", "p"⟩),
   ("d12", ⟨"d12", "p"⟩), ("d13", ⟨"d13", "p"⟩), ("d14", ⟨"d14", "p"⟩)]

/-- Three containers found running in the scenario. -/
def c6found3 : List String := ["d0", "d1", "d2"]

/-- The live-container collaborator reports those three plus two others. -/
def c6alive5 : List String := ["d0", "d1", "d2", "d3", "d4"]

end Fix

/-! ### Lemmas about the association-list operations -/

section AssocLemmas

variable {κ ν : Type} [DecidableEq κ]

theorem alookup_aupdate_self (k : κ) (v : ν) (l : List (κ × ν)) :
    alookup k (aupdate k v l) = some v := by
  induction l with
  | nil => simp [aupdate, alookup]
  | cons e rest ih =>
    obtain ⟨k', v'⟩ := e
    by_cases h : k' = k
    · simp [aupdate, h, alookup]
    · simp [aupdate, h, alookup, ih]

theorem alookup_aupdate_ne (q k : κ) (v : ν) (l : List (κ × ν)) (h : q ≠ k) :
    alookup q (aupdate k v l) = alookup q l := by
  induction l with
  | nil =>
    simp only [aupdate, alookup]
    rw [if_neg (fun hh => h hh.symm)]
  | cons e rest ih =>
    obtain ⟨k', v'⟩ := e
    by_cases hk : k' = k
    · subst hk
      simp only [aupdate, if_pos rfl, alookup]
      rw [if_neg (fun hh => h hh.symm), if_neg (fun hh => h hh.symm)]
    · simp only [aupdate, if_neg hk, alookup]
      by_cases hq : k' = q
      · simp [hq]
      · simp [hq, ih]

theorem mem_of_alookup_eq_some {k : κ} {v : ν} {l : List (κ × ν)}
    (h : alookup k l = some v) : (k, v) ∈ l := by
  induction l with
  | nil => simp [alookup] at h
  | cons e rest ih =>
    obtain ⟨k', v'⟩ := e
    by_cases hk : k' = k
    · subst hk
      rw [alookup, if_pos rfl] at h
      have hv := Option.some.inj h
      subst hv
      exact List.mem_cons_self _ _
    · rw [alookup, if_neg hk] at h
      exact List.mem_cons_of_mem _ (ih h)

theorem alookup_eq_none_iff {k : κ} {l : List (κ × ν)} :
    alookup k l = none ↔ k ∉ l.map Prod.fst := by
  induction l with
  | nil => simp [alookup]
  | cons e rest ih =>
    obtain ⟨k', v'⟩ := e
    by_cases hk : k' = k
    · subst hk; simp [alookup]
    · simp [alookup, hk, ih, Ne.symm hk]

theorem alookup_eq_some_of_mem {k : κ} {v : ν} {l : List (κ × ν)}
    (hn : keysNodup l) (h : (k, v) ∈ l) : alookup k l = some v := by
  induction l with
  | nil => simp at h
  | cons e rest ih =>
    obtain ⟨k', v'⟩ := e
    rcases List.mem_cons.1 h with he | he
    · have h1 : k = k' := congrArg Prod.fst he
      have h2 : v = v' := congrArg Prod.snd he
      subst h1
      subst h2
      simp [alookup]
    · have hk : k' ≠ k := by
        intro hh
        subst hh
        have hmem : k' ∈ rest.map Prod.fst := List.mem_map_of_mem Prod.fst he
        exact (List.nodup_cons.1 hn).1 hmem
      rw [alookup, if_neg hk]
      exact ih (List.nodup_cons.1 hn).2 he

theorem aupdate_of_not_mem {k : κ} {v : ν} {l : List (κ × ν)}
    (h : k ∉ l.map Prod.fst) : aupdate k v l = l ++ [(k, v)] := by
  induction l with
  | nil => simp [aupdate]
  | cons e rest ih =>
    obtain ⟨k', v'⟩ := e
    simp only [List.map_cons, List.mem_cons] at h
    push_neg at h
    simp [aupdate, Ne.symm h.1, ih h.2]

theorem map_fst_aupdate_of_mem {k : κ} {l : List (κ × ν)} (v : ν)
    (h : k ∈ l.map Prod.fst) : (aupdate k v l).map Prod.fst = l.map Prod.fst := by
  induction l with
  | nil => simp at h
  | cons e rest ih =>
    obtain ⟨k', v'⟩ := e
    by_cases hk : k' = k
    · simp [aupdate, hk]
    · have h2 : k ∈ rest.map Prod.fst := by
        rw [List.map_cons] at h
        rcases List.mem_cons.1 h with h1 | h1
        · exact absurd h1.symm hk
        · exact h1
      simp [aupdate, hk, ih h2]

theorem keysNodup_aupdate {l : List (κ × ν)} (k : κ) (v : ν)
    (h : keysNodup l) : keysNodup (aupdate k v l) := by
  by_cases hm : k ∈ l.map Prod.fst
  · unfold keysNodup
    rw [map_fst_aupdate_of_mem v hm]
    exact h
  · unfold keysNodup
    rw [aupdate_of_not_mem hm]
    simp only [List.map_append, List.map_cons, List.map_nil]
    exact List.Nodup.append h (List.nodup_singleton _)
      (by simpa [List.disjoint_singleton] using hm)

theorem alookup_filter_eq_none {f : κ × ν → Bool} {k : κ} {l : List (κ × ν)}
    (h : alookup k l = none) : alookup k (l.filter f) = none := by
  rw [alookup_eq_none_iff] at h ⊢
  intro hm
  apply h
  rcases List.mem_map.1 hm with ⟨e, he, hke⟩
  exact hke ▸ List.mem_map_of_mem Prod.fst (List.mem_of_mem_filter he)

theorem alookup_filter_isSome {f : κ × ν → Bool} {k : κ} {l : List (κ × ν)}
    (h : (alookup k (l.filter f)).isSome) :
    ∃ v, (k, v) ∈ l ∧ f (k, v) = true := by
  rcases Option.isSome_iff_exists.1 h with ⟨v, hv⟩
  have hm := mem_of_alookup_eq_some hv
  exact ⟨v, List.mem_of_mem_filter hm, List.of_mem_filter hm⟩

theorem alookup_map_entry {α β : Type} (f : κ → α → β) (k : κ) (l : List (κ × α)) :
    alookup k (l.map (fun e => (e.1, f e.1 e.2))) = (alookup k l).map (f k) := by
  induction l with
  | nil => rfl
  | cons e rest ih =>
    obtain ⟨k', v⟩ := e
    by_cases h : k' = k
    · subst h; simp [alookup]
    · simp [alookup, h, ih]

end AssocLemmas

/-! ### Lemmas about the accumulation sums of the refresh loop -/

namespace Resource

theorem filterSum_nil_running (cache : List (ℕ × Process))
    (P : Process → Bool) (w : Process → ℚ) : filterSum cache [] P w = 0 := by
  unfold filterSum
  have hf : cache.filter (fun e => decide (e.1 ∈ ([] : List ℕ)) && P e.2) = [] := by
    apply List.filter_eq_nil_iff.2
    intro e _
    simp
  rw [hf]
  rfl

theorem filterSum_append_of_ne (cache : List (ℕ × Process)) (running : List ℕ)
    (pid : ℕ) (P : Process → Bool) (w : Process → ℚ)
    (h : ∀ e ∈ cache, e.1 ≠ pid) :
    filterSum cache (running ++ [pid]) P w = filterSum cache running P w := by
  induction cache with
  | nil => rfl
  | cons e rest ih =>
    obtain ⟨k, v⟩ := e
    have hk : k ≠ pid := h (k, v) (List.mem_cons_self _ _)
    have hmem : decide (k ∈ running ++ [pid]) = decide (k ∈ running) :=
      decide_eq_decide.2 (by simp [List.mem_append, hk])
    have ihr := ih (fun e he => h e (List.mem_cons_of_mem _ he))
    unfold filterSum at ihr ⊢
    simp only [List.filter_cons, hmem]
    by_cases hc : (decide (k ∈ running) && P v) = true
    · rw [if_pos hc, if_pos hc]
      simp only [List.map_cons, List.sum_cons]
      rw [ihr]
    · rw [if_neg hc, if_neg hc]
      exact ihr

theorem filterSum_aupdate_not_running (cache : List (ℕ × Process))
    (running : List ℕ) (pid : ℕ) (p : Process)
    (P : Process → Bool) (w : Process → ℚ) (h : pid ∉ running) :
    filterSum (aupdate pid p cache) running P w = filterSum cache running P w := by
  induction cache with
  | nil =>
    unfold filterSum aupdate
    simp [h]
  | cons e rest ih =>
    obtain ⟨k, v⟩ := e
    by_cases hk : k = pid
    · subst hk
      unfold filterSum
      rw [aupdate, if_pos rfl]
      have hmem : decide (k ∈ running) = false := by simpa using h
      simp only [List.filter_cons, hmem, Bool.false_and, Bool.false_eq_true,
        if_false]
    · unfold filterSum
      rw [aupdate, if_neg hk]
      unfold filterSum at ih
      simp only [List.filter_cons]
      by_cases hc : (decide (k ∈ running) && P v) = true
      · rw [if_pos hc, if_pos hc]
        simp only [List.map_cons, List.sum_cons]
        rw [ih]
      · rw [if_neg hc, if_neg hc]
        exact ih

theorem filterSum_aupdate_append (cache : List (ℕ × Process))
    (running : List ℕ) (pid : ℕ) (p : Process)
    (P : Process → Bool) (w : Process → ℚ)
    (h : pid ∉ running) (hn : keysNodup cache) :
    filterSum (aupdate pid p cache) (running ++ [pid]) P w
      = filterSum cache running P w + (if P p then w p else 0) := by
  induction cache with
  | nil =>
    unfold filterSum aupdate
    have hmem : decide (pid ∈ running ++ [pid]) = true := by simp
    simp only [List.filter_cons, List.filter_nil, hmem, Bool.true_and]
    by_cases hp : P p = true
    · rw [if_pos hp, if_pos hp]
      simp
    · rw [if_neg hp, if_neg hp]
      simp
  | cons e rest ih =>
    obtain ⟨k, v⟩ := e
    have hrest : keysNodup rest := (List.nodup_cons.1 hn).2
    by_cases hk : k = pid
    · subst hk
      have hknotin : k ∉ rest.map Prod.fst := (List.nodup_cons.1 hn).1
      have hne : ∀ e ∈ rest, e.1 ≠ k := by
        intro e he hek
        exact hknotin (hek ▸ List.mem_map_of_mem Prod.fst he)
      have hS := filterSum_append_of_ne rest running k P w hne
      rw [aupdate, if_pos rfl]
      unfold filterSum at hS ⊢
      have hmem1 : decide (k ∈ running ++ [k]) = true := by simp
      have hmem2 : decide (k ∈ running) = false := by simpa using h
      simp only [List.filter_cons, hmem1, hmem2, Bool.true_and, Bool.false_and,
        Bool.false_eq_true, if_false]
      by_cases hp : P p = true
      · rw [if_pos hp, if_pos hp]
        simp only [List.map_cons, List.sum_cons]
        rw [hS]
        ring
      · rw [if_neg hp, if_neg hp]
        rw [hS]
        ring
    · rw [aupdate, if_neg hk]
      have hmem : decide (k ∈ running ++ [pid]) = decide (k ∈ running) :=
        decide_eq_decide.2 (by simp [List.mem_append, hk])
      have ihr := ih hrest
      unfold filterSum at ihr ⊢
      simp only [List.filter_cons, hmem]
      by_cases hc : (decide (k ∈ running) && P v) = true
      · rw [if_pos hc, if_pos hc]
        simp only [List.map_cons, List.sum_cons]
        rw [ihr]
        ring
      · rw [if_neg hc, if_neg hc]
        exact ihr

theorem populateProcessFields_ok_delta {p : Process} {e : ProcInfo} {q : Process}
    (h : populateProcessFields p e = (q, none)) :
    ∃ t, e.cpuTime = .ok t ∧ q.CPUTimeDelta = t - p.CPUTotalTime := by
  unfold populateProcessFields at h
  cases he : e.cpuTime with
  | error msg => rw [he] at h; exact absurd (congrArg Prod.snd h) (by simp)
  | ok t =>
    rw [he] at h
    refine ⟨t, rfl, ?_⟩
    simp only at h
    split at h
    · rw [Prod.mk.injEq] at h
      rw [← h.1]
    · split at h
      · exact absurd (congrArg Prod.snd h) (by simp)
      · split at h
        · exact absurd (congrArg Prod.snd h) (by simp)
        · split at h
          · split at h
            · exact absurd (congrArg Prod.snd h) (by simp)
            · rw [Prod.mk.injEq] at h
              rw [← h.1]
          · rw [Prod.mk.injEq] at h
            rw [← h.1]

theorem newProcess_ok_delta {e : ProcInfo} {q : Process}
    (h : newProcess e = .ok q) :
    ∃ t, e.cpuTime = .ok t ∧ q.CPUTimeDelta = t := by
  unfold newProcess at h
  cases hpe : populateProcessFields (initProcess e.pid) e with
  | mk p r =>
    rw [hpe] at h
    cases r with
    | some msg => exact absurd h (by simp)
    | none =>
      simp only at h
      have hq : p = q := Except.ok.inj h
      obtain ⟨t, ht, hd⟩ := populateProcessFields_ok_delta hpe
      refine ⟨t, ht, ?_⟩
      rw [← hq, hd]
      show t - (initProcess e.pid).CPUTotalTime = t
      rw [show (initProcess e.pid).CPUTotalTime = 0 from rfl]
      ring

theorem updateProcessCache_eq_some {cache : List (ℕ × Process)} {e : ProcInfo}
    {cached : Process} (hl : alookup e.pid cache = some cached) :
    updateProcessCache cache e =
      match populateProcessFields cached e with
      | (p, none) => (aupdate e.pid p cache, .ok p)
      | (p, some msg) => (aupdate e.pid p cache, .error msg) := by
  unfold updateProcessCache
  rw [hl]

theorem updateProcessCache_eq_none {cache : List (ℕ × Process)} {e : ProcInfo}
    (hl : alookup e.pid cache = none) :
    updateProcessCache cache e =
      match newProcess e with
      | .error msg => (cache, .error msg)
      | .ok p => (aupdate e.pid p cache, .ok p) := by
  unfold updateProcessCache
  rw [hl]

theorem updateProcessCache_fst_cases (cache : List (ℕ × Process)) (e : ProcInfo) :
    (updateProcessCache cache e).1 = cache ∨
      ∃ q, (updateProcessCache cache e).1 = aupdate e.pid q cache := by
  cases hl : alookup e.pid cache with
  | some cached =>
    rw [updateProcessCache_eq_some hl]
    cases hp : populateProcessFields cached e with
    | mk q r => cases r <;> exact Or.inr ⟨q, rfl⟩
  | none =>
    rw [updateProcessCache_eq_none hl]
    cases hn : newProcess e with
    | error msg => exact Or.inl rfl
    | ok q => exact Or.inr ⟨q, rfl⟩

theorem updateProcessCache_ok_fst {cache : List (ℕ × Process)} {e : ProcInfo}
    {q : Process} (h : (updateProcessCache cache e).2 = .ok q) :
    (updateProcessCache cache e).1 = aupdate e.pid q cache := by
  cases hl : alookup e.pid cache with
  | some cached =>
    rw [updateProcessCache_eq_some hl] at h ⊢
    cases hp : populateProcessFields cached e with
    | mk q' r =>
      rw [hp] at h
      cases r with
      | none =>
        simp only at h ⊢
        rw [Except.ok.inj h]
      | some msg => exact absurd h (by simp)
  | none =>
    rw [updateProcessCache_eq_none hl] at h ⊢
    cases hn : newProcess e with
    | error msg => rw [hn] at h; exact absurd h (by simp)
    | ok q' =>
      rw [hn] at h
      simp only at h ⊢
      rw [Except.ok.inj h]

theorem updateProcessCache_ok_delta {cache : List (ℕ × Process)} {e : ProcInfo}
    {q : Process} (h : (updateProcessCache cache e).2 = .ok q) :
    ∃ t, e.cpuTime = .ok t ∧
      q.CPUTimeDelta = t - (match alookup e.pid cache with
        | some cached => cached.CPUTotalTime
        | none => 0) := by
  cases hl : alookup e.pid cache with
  | some cached =>
    rw [updateProcessCache_eq_some hl] at h
    cases hp : populateProcessFields cached e with
    | mk q' r =>
      rw [hp] at h
      cases r with
      | none =>
        simp only at h
        rw [← Except.ok.inj h]
        exact populateProcessFields_ok_delta hp
      | some msg => exact absurd h (by simp)
  | none =>
    rw [updateProcessCache_eq_none hl] at h
    cases hn : newProcess e with
    | error msg => rw [hn] at h; exact absurd h (by simp)
    | ok q' =>
      rw [hn] at h
      simp only at h
      obtain ⟨t, ht, hd⟩ := newProcess_ok_delta hn
      refine ⟨t, ht, ?_⟩
      rw [← Except.ok.inj h, hd]
      ring

theorem updateProcessCache_alookup_ne (cache : List (ℕ × Process)) (e : ProcInfo)
    (q : ℕ) (h : q ≠ e.pid) :
    alookup q (updateProcessCache cache e).1 = alookup q cache := by
  rcases updateProcessCache_fst_cases cache e with hc | ⟨p, hc⟩
  · rw [hc]
  · rw [hc, alookup_aupdate_ne _ _ _ _ h]

theorem updateProcessCache_keysNodup {cache : List (ℕ × Process)} (e : ProcInfo)
    (h : keysNodup cache) : keysNodup (updateProcessCache cache e).1 := by
  rcases updateProcessCache_fst_cases cache e with hc | ⟨p, hc⟩
  · rw [hc]; exact h
  · rw [hc]; exact keysNodup_aupdate _ _ h

theorem updateProcessCache_snd_congr {c1 c2 : List (ℕ × Process)} (e : ProcInfo)
    (h : alookup e.pid c1 = alookup e.pid c2) :
    (updateProcessCache c1 e).2 = (updateProcessCache c2 e).2 := by
  cases hl : alookup e.pid c2 with
  | some cached =>
    rw [updateProcessCache_eq_some (h.trans hl), updateProcessCache_eq_some hl]
    cases hp : populateProcessFields cached e with
    | mk q r => cases r <;> rfl
  | none =>
    rw [updateProcessCache_eq_none (h.trans hl), updateProcessCache_eq_none hl]
    cases hn : newProcess e <;> rfl

theorem accountProcess_procCache (acc : RefreshAcc) (proc : Process) :
    (accountProcess acc proc).procCache = acc.procCache := by
  unfold accountProcess
  cases proc.Container with
  | some c => rfl
  | none =>
    cases proc.VirtualMachine with
    | some vm => rfl
    | none => rfl

theorem accountProcess_runningPids (acc : RefreshAcc) (proc : Process) :
    (accountProcess acc proc).runningPids = acc.runningPids := by
  unfold accountProcess
  cases proc.Container with
  | some c => rfl
  | none =>
    cases proc.VirtualMachine with
    | some vm => rfl
    | none => rfl

theorem refreshStep_eq_error {acc : RefreshAcc} {e : ProcInfo}
    {cache : List (ℕ × Process)} {msg : String}
    (hu : updateProcessCache acc.procCache e = (cache, .error msg)) :
    refreshStep acc e =
      { acc with procCache := cache,
                 refreshErrs := joinErrOpt acc.refreshErrs msg } := by
  unfold refreshStep
  rw [hu]

theorem refreshStep_eq_ok {acc : RefreshAcc} {e : ProcInfo}
    {cache : List (ℕ × Process)} {proc : Process}
    (hu : updateProcessCache acc.procCache e = (cache, .ok proc)) :
    refreshStep acc e =
      accountProcess
        { acc with
          procCache := cache,
          runningPids :=
            if e.pid ∈ acc.runningPids then acc.runningPids
            else acc.runningPids ++ [e.pid] }
        proc := by
  unfold refreshStep
  rw [hu]

theorem refreshStep_procCache_alookup_ne (acc : RefreshAcc) (e : ProcInfo)
    (q : ℕ) (h : q ≠ e.pid) :
    alookup q (refreshStep acc e).procCache = alookup q acc.procCache := by
  cases hu : updateProcessCache acc.procCache e with
  | mk cache r =>
    have hfst : cache = (updateProcessCache acc.procCache e).1 := by rw [hu]
    cases r with
    | error msg =>
      rw [refreshStep_eq_error hu]
      rw [hfst, updateProcessCache_alookup_ne _ _ _ h]
    | ok proc =>
      rw [refreshStep_eq_ok hu, accountProcess_procCache]
      rw [hfst, updateProcessCache_alookup_ne _ _ _ h]

theorem refreshStep_keysNodup (acc : RefreshAcc) (e : ProcInfo)
    (h : keysNodup acc.procCache) : keysNodup (refreshStep acc e).procCache := by
  cases hu : updateProcessCache acc.procCache e with
  | mk cache r =>
    have hfst : cache = (updateProcessCache acc.procCache e).1 := by rw [hu]
    cases r with
    | error msg =>
      rw [refreshStep_eq_error hu]
      rw [hfst]
      exact updateProcessCache_keysNodup e h
    | ok proc =>
      rw [refreshStep_eq_ok hu, accountProcess_procCache]
      rw [hfst]
      exact updateProcessCache_keysNodup e h

theorem refreshStep_runningPids_cases (acc : RefreshAcc) (e : ProcInfo) :
    (refreshStep acc e).runningPids = acc.runningPids ∨
      (refreshStep acc e).runningPids = acc.runningPids ++ [e.pid] := by
  cases hu : updateProcessCache acc.procCache e with
  | mk cache r =>
    cases r with
    | error msg => rw [refreshStep_eq_error hu]; exact Or.inl rfl
    | ok proc =>
      rw [refreshStep_eq_ok hu, accountProcess_runningPids]
      by_cases hm : e.pid ∈ acc.runningPids
      · rw [if_pos hm]; exact Or.inl rfl
      · rw [if_neg hm]; exact Or.inr rfl

theorem containerAccum_delta_reset (prev : Option Container) (c : Container)
    (delta : ℚ) : (containerAccum prev c delta true).CPUTimeDelta = delta := by
  show (0 : ℚ) + delta = delta
  ring

theorem containerAccum_delta_noreset (prev : Option Container) (c : Container)
    (delta : ℚ) :
    (containerAccum prev c delta false).CPUTimeDelta
      = (prev.getD c).CPUTimeDelta + delta := rfl

theorem vmAccum_delta_reset (prev : Option VirtualMachine) (vm : VirtualMachine)
    (delta : ℚ) : (vmAccum prev vm delta true).CPUTimeDelta = delta := by
  show (0 : ℚ) + delta = delta
  ring

theorem vmAccum_delta_noreset (prev : Option VirtualMachine) (vm : VirtualMachine)
    (delta : ℚ) :
    (vmAccum prev vm delta false).CPUTimeDelta
      = (prev.getD vm).CPUTimeDelta + delta := rfl

theorem updateContainerCache_eq_some {proc : Process} {c : Container}
    (cache : List (String × Container)) (rb : Bool) (hc : proc.Container = some c) :
    updateContainerCache cache proc rb =
      aupdate c.ID (containerAccum (alookup c.ID cache) c proc.CPUTimeDelta rb) cache := by
  unfold updateContainerCache
  rw [hc]

theorem updateContainerCache_eq_none {proc : Process}
    (cache : List (String × Container)) (rb : Bool) (hc : proc.Container = none) :
    updateContainerCache cache proc rb = cache := by
  unfold updateContainerCache
  rw [hc]

theorem updateVMCache_eq_some {proc : Process} {vm : VirtualMachine}
    (cache : List (String × VirtualMachine)) (rb : Bool)
    (hvm : proc.VirtualMachine = some vm) :
    updateVMCache cache proc rb =
      aupdate vm.ID (vmAccum (alookup vm.ID cache) vm proc.CPUTimeDelta rb) cache := by
  unfold updateVMCache
  rw [hvm]

theorem updateVMCache_eq_none {proc : Process}
    (cache : List (String × VirtualMachine)) (rb : Bool)
    (hvm : proc.VirtualMachine = none) :
    updateVMCache cache proc rb = cache := by
  unfold updateVMCache
  rw [hvm]

theorem updateContainerCache_keysNodup (cache : List (String × Container))
    (proc : Process) (rb : Bool) (h : keysNodup cache) :
    keysNodup (updateContainerCache cache proc rb) := by
  cases hc : proc.Container with
  | none => rw [updateContainerCache_eq_none cache rb hc]; exact h
  | some c =>
    rw [updateContainerCache_eq_some cache rb hc]
    exact keysNodup_aupdate _ _ h

theorem updateVMCache_keysNodup (cache : List (String × VirtualMachine))
    (proc : Process) (rb : Bool) (h : keysNodup cache) :
    keysNodup (updateVMCache cache proc rb) := by
  cases hvm : proc.VirtualMachine with
  | none => rw [updateVMCache_eq_none cache rb hvm]; exact h
  | some vm =>
    rw [updateVMCache_eq_some cache rb hvm]
    exact keysNodup_aupdate _ _ h

theorem containerKey_eq_some {proc : Process} {c : Container}
    (hc : proc.Container = some c) : containerKey proc = some c.ID := by
  unfold containerKey
  rw [hc]
  rfl

theorem containerKey_eq_none {proc : Process} (hc : proc.Container = none) :
    containerKey proc = none := by
  unfold containerKey
  rw [hc]
  rfl

theorem vmKey_of_container {proc : Process} {c : Container}
    (hc : proc.Container = some c) : vmKey proc = none := by
  unfold vmKey
  rw [hc]

theorem vmKey_eq_some {proc : Process} {vm : VirtualMachine}
    (hc : proc.Container = none) (hvm : proc.VirtualMachine = some vm) :
    vmKey proc = some vm.ID := by
  unfold vmKey
  rw [hc, hvm]
  rfl

theorem vmKey_eq_none {proc : Process} (hc : proc.Container = none)
    (hvm : proc.VirtualMachine = none) : vmKey proc = none := by
  unfold vmKey
  rw [hc, hvm]
  rfl

theorem filterSum_upc_stable (cache0 : List (ℕ × Process)) (e : ProcInfo)
    (running : List ℕ) (P : Process → Bool) (w : Process → ℚ)
    (hfresh : e.pid ∉ running) :
    filterSum (updateProcessCache cache0 e).1 running P w
      = filterSum cache0 running P w := by
  rcases updateProcessCache_fst_cases cache0 e with hc | ⟨p, hc⟩
  · rw [hc]
  · rw [hc]
    exact filterSum_aupdate_not_running _ _ _ _ _ _ hfresh

theorem ctrSumOf_mk (pc : List (ℕ × Process)) (cc : List (String × Container))
    (vc : List (String × VirtualMachine)) (run : List ℕ) (cseen vseen : List String)
    (errs : Option String) (id : String) :
    ctrSumOf ⟨pc, cc, vc, run, cseen, vseen, errs⟩ id
      = filterSum pc run (fun p => decide (containerKey p = some id))
          (fun p => p.CPUTimeDelta) := rfl

theorem vmSumOf_mk (pc : List (ℕ × Process)) (cc : List (String × Container))
    (vc : List (String × VirtualMachine)) (run : List ℕ) (cseen vseen : List String)
    (errs : Option String) (id : String) :
    vmSumOf ⟨pc, cc, vc, run, cseen, vseen, errs⟩ id
      = filterSum pc run (fun p => decide (vmKey p = some id))
          (fun p => p.CPUTimeDelta) := rfl

theorem nodeSumOf_mk (pc : List (ℕ × Process)) (cc : List (String × Container))
    (vc : List (String × VirtualMachine)) (run : List ℕ) (cseen vseen : List String)
    (errs : Option String) :
    nodeSumOf ⟨pc, cc, vc, run, cseen, vseen, errs⟩
      = filterSum pc run (fun _ => true) (fun p => p.CPUTimeDelta) := rfl

theorem refreshStep_inv (acc : RefreshAcc) (e : ProcInfo)
    (h : LoopInv acc) (hfresh : e.pid ∉ acc.runningPids) :
    LoopInv (refreshStep acc e) := by
  have hctrSeen := h.ctrSeen
  have hctrUnseen := h.ctrUnseen
  have hvmSeen := h.vmSeen
  have hvmUnseen := h.vmUnseen
  unfold ctrSumOf at hctrSeen hctrUnseen
  unfold vmSumOf at hvmSeen hvmUnseen
  cases hu : updateProcessCache acc.procCache e with
  | mk cache r =>
    have hfst : cache = (updateProcessCache acc.procCache e).1 := by rw [hu]
    cases r with
    | error msg =>
      rw [refreshStep_eq_error hu]
      have hstab : ∀ (P : Process → Bool) (w : Process → ℚ),
          filterSum cache acc.runningPids P w
            = filterSum acc.procCache acc.runningPids P w := by
        intro P w
        rw [hfst]
        exact filterSum_upc_stable _ _ _ _ _ hfresh
      refine ⟨?_, h.ncc, h.nvc, h.nrun, ?_, ?_, ?_, ?_⟩
      · show keysNodup cache
        rw [hfst]
        exact updateProcessCache_keysNodup e h.npc
      · intro id hid
        obtain ⟨c, hcl, hsum⟩ := hctrSeen id hid
        refine ⟨c, hcl, ?_⟩
        rw [ctrSumOf_mk, hstab]
        exact hsum
      · intro id hid
        rw [ctrSumOf_mk, hstab]
        exact hctrUnseen id hid
      · intro id hid
        obtain ⟨v, hvl, hsum⟩ := hvmSeen id hid
        refine ⟨v, hvl, ?_⟩
        rw [vmSumOf_mk, hstab]
        exact hsum
      · intro id hid
        rw [vmSumOf_mk, hstab]
        exact hvmUnseen id hid
    | ok proc =>
      rw [refreshStep_eq_ok hu, if_neg hfresh]
      have hok : (updateProcessCache acc.procCache e).2 = .ok proc := by rw [hu]
      have hcache : cache = aupdate e.pid proc acc.procCache := by
        rw [hfst, updateProcessCache_ok_fst hok]
      have hadd : ∀ (P : Process → Bool) (w : Process → ℚ),
          filterSum cache (acc.runningPids ++ [e.pid]) P w
            = filterSum acc.procCache acc.runningPids P w
              + (if P proc then w proc else 0) := by
        intro P w
        rw [hcache]
        exact filterSum_aupdate_append _ _ _ _ _ _ hfresh h.npc
      have hnpc1 : keysNodup cache := by
        rw [hcache]
        exact keysNodup_aupdate _ _ h.npc
      have hrun1 : (acc.runningPids ++ [e.pid]).Nodup := by
        simp [List.nodup_append, h.nrun, hfresh]
      cases hc : proc.Container with
      | some c =>
        have hck : containerKey proc = some c.ID := containerKey_eq_some hc
        have hvk : vmKey proc = none := vmKey_of_container hc
        have hstep : accountProcess
            { acc with procCache := cache,
                       runningPids := acc.runningPids ++ [e.pid] } proc
          = { acc with
              procCache := cache,
              runningPids := acc.runningPids ++ [e.pid],
              containerCache := updateContainerCache acc.containerCache proc
                (!decide (c.ID ∈ acc.containersSeen)),
              containersSeen :=
                if c.ID ∈ acc.containersSeen then acc.containersSeen
                else acc.containersSeen ++ [c.ID] } := by
          unfold accountProcess
          rw [hc]
        rw [hstep]
        have hvmsum : ∀ id, filterSum cache (acc.runningPids ++ [e.pid])
            (fun p => decide (vmKey p = some id)) (fun p => p.CPUTimeDelta)
            = filterSum acc.procCache acc.runningPids
                (fun p => decide (vmKey p = some id)) (fun p => p.CPUTimeDelta) := by
          intro id
          rw [hadd, if_neg (by rw [hvk]; simp), add_zero]
        have hctrsum_ne : ∀ id, id ≠ c.ID →
            filterSum cache (acc.runningPids ++ [e.pid])
              (fun p => decide (containerKey p = some id)) (fun p => p.CPUTimeDelta)
            = filterSum acc.procCache acc.runningPids
                (fun p => decide (containerKey p = some id)) (fun p => p.CPUTimeDelta) := by
          intro id hne
          rw [hadd, if_neg (by rw [hck]; simp; exact fun hh => hne hh.symm), add_zero]
        have hctrsum_eq :
            filterSum cache (acc.runningPids ++ [e.pid])
              (fun p => decide (containerKey p = some c.ID)) (fun p => p.CPUTimeDelta)
            = filterSum acc.procCache acc.runningPids
                (fun p => decide (containerKey p = some c.ID)) (fun p => p.CPUTimeDelta)
              + proc.CPUTimeDelta := by
          rw [hadd, if_pos (by rw [hck]; simp)]
        refine ⟨hnpc1, ?_, h.nvc, hrun1, ?_, ?_, ?_, ?_⟩
        · exact updateContainerCache_keysNodup _ _ _ h.ncc
        · intro id hid
          have hid' : id ∈ (if c.ID ∈ acc.containersSeen then acc.containersSeen
              else acc.containersSeen ++ [c.ID]) := hid
          rw [ctrSumOf_mk]
          show ∃ c', alookup id (updateContainerCache acc.containerCache proc
              (!decide (c.ID ∈ acc.containersSeen))) = some c' ∧
            c'.CPUTimeDelta = filterSum cache (acc.runningPids ++ [e.pid])
              (fun p => decide (containerKey p = some id)) (fun p => p.CPUTimeDelta)
          by_cases hseen : c.ID ∈ acc.containersSeen
          · rw [if_pos hseen] at hid'
            have hrb : (!decide (c.ID ∈ acc.containersSeen)) = false := by
              simp [hseen]
            rw [updateContainerCache_eq_some acc.containerCache _ hc, hrb]
            obtain ⟨cOld, hlookOld, hsumOld⟩ := hctrSeen id hid'
            by_cases hidc : id = c.ID
            · subst hidc
              refine ⟨_, alookup_aupdate_self _ _ _, ?_⟩
              rw [containerAccum_delta_noreset, hlookOld, Option.getD_some]
              rw [hctrsum_eq, hsumOld]
            · refine ⟨cOld, ?_, ?_⟩
              · rw [alookup_aupdate_ne _ _ _ _ hidc]
                exact hlookOld
              · rw [hctrsum_ne id hidc]
                exact hsumOld
          · rw [if_neg hseen] at hid'
            have hrb : (!decide (c.ID ∈ acc.containersSeen)) = true := by
              simp [hseen]
            rw [updateContainerCache_eq_some acc.containerCache _ hc, hrb]
            rcases List.mem_append.1 hid' with hin | hin
            · have hidc : id ≠ c.ID := fun hh => hseen (hh ▸ hin)
              obtain ⟨cOld, hlookOld, hsumOld⟩ := hctrSeen id hin
              refine ⟨cOld, ?_, ?_⟩
              · rw [alookup_aupdate_ne _ _ _ _ hidc]
                exact hlookOld
              · rw [hctrsum_ne id hidc]
                exact hsumOld
            · have hidc : id = c.ID := List.mem_singleton.1 hin
              subst hidc
              refine ⟨_, alookup_aupdate_self _ _ _, ?_⟩
              rw [containerAccum_delta_reset, hctrsum_eq, hctrUnseen c.ID hseen,
                zero_add]
        · intro id hid
          have hid' : id ∉ (if c.ID ∈ acc.containersSeen then acc.containersSeen
              else acc.containersSeen ++ [c.ID]) := hid
          rw [ctrSumOf_mk]
          by_cases hseen : c.ID ∈ acc.containersSeen
          · rw [if_pos hseen] at hid'
            have hidc : id ≠ c.ID := fun hh => hid' (hh ▸ hseen)
            rw [hctrsum_ne id hidc]
            exact hctrUnseen id hid'
          · rw [if_neg hseen] at hid'
            have hidn : id ∉ acc.containersSeen :=
              fun hh => hid' (List.mem_append.2 (Or.inl hh))
            have hidc : id ≠ c.ID := fun hh =>
              hid' (List.mem_append.2 (Or.inr (by rw [hh]; exact List.mem_singleton_self _)))
            rw [hctrsum_ne id hidc]
            exact hctrUnseen id hidn
        · intro id hid
          have hid' : id ∈ acc.vmsSeen := hid
          obtain ⟨v, hvl, hsum⟩ := hvmSeen id hid'
          refine ⟨v, hvl, ?_⟩
          rw [vmSumOf_mk, hvmsum id]
          exact hsum
        · intro id hid
          have hid' : id ∉ acc.vmsSeen := hid
          rw [vmSumOf_mk, hvmsum id]
          exact hvmUnseen id hid'
      | none =>
        cases hv : proc.VirtualMachine with
        | some vm =>
          have hck : containerKey proc = none := containerKey_eq_none hc
          have hvk : vmKey proc = some vm.ID := vmKey_eq_some hc hv
          have hstep : accountProcess
              { acc with procCache := cache,
                         runningPids := acc.runningPids ++ [e.pid] } proc
            = { acc with
                procCache := cache,
                runningPids := acc.runningPids ++ [e.pid],
                vmCache := updateVMCache acc.vmCache proc
                  (!decide (vm.ID ∈ acc.vmsSeen)),
                vmsSeen :=
                  if vm.ID ∈ acc.vmsSeen then acc.vmsSeen
                  else acc.vmsSeen ++ [vm.ID] } := by
            unfold accountProcess
            rw [hc, hv]
          rw [hstep]
          have hctrsum : ∀ id, filterSum cache (acc.runningPids ++ [e.pid])
              (fun p => decide (containerKey p = some id)) (fun p => p.CPUTimeDelta)
              = filterSum acc.procCache acc.runningPids
                  (fun p => decide (containerKey p = some id)) (fun p => p.CPUTimeDelta) := by
            intro id
            rw [hadd, if_neg (by rw [hck]; simp), add_zero]
          have hvmsum_ne : ∀ id, id ≠ vm.ID →
              filterSum cache (acc.runningPids ++ [e.pid])
                (fun p => decide (vmKey p = some id)) (fun p => p.CPUTimeDelta)
              = filterSum acc.procCache acc.runningPids
                  (fun p => decide (vmKey p = some id)) (fun p => p.CPUTimeDelta) := by
            intro id hne
            rw [hadd, if_neg (by rw [hvk]; simp; exact fun hh => hne hh.symm), add_zero]
          have hvmsum_eq :
              filterSum cache (acc.runningPids ++ [e.pid])
                (fun p => decide (vmKey p = some vm.ID)) (fun p => p.CPUTimeDelta)
              = filterSum acc.procCache acc.runningPids
                  (fun p => decide (vmKey p = some vm.ID)) (fun p => p.CPUTimeDelta)
                + proc.CPUTimeDelta := by
            rw [hadd, if_pos (by rw [hvk]; simp)]
          refine ⟨hnpc1, h.ncc, ?_, hrun1, ?_, ?_, ?_, ?_⟩
          · exact updateVMCache_keysNodup _ _ _ h.nvc
          · intro id hid
            have hid' : id ∈ acc.containersSeen := hid
            obtain ⟨c, hcl, hsum⟩ := hctrSeen id hid'
            refine ⟨c, hcl, ?_⟩
            rw [ctrSumOf_mk, hctrsum id]
            exact hsum
          · intro id hid
            have hid' : id ∉ acc.containersSeen := hid
            rw [ctrSumOf_mk, hctrsum id]
            exact hctrUnseen id hid'
          · intro id hid
            have hid' : id ∈ (if vm.ID ∈ acc.vmsSeen then acc.vmsSeen
                else acc.vmsSeen ++ [vm.ID]) := hid
            rw [vmSumOf_mk]
            show ∃ v', alookup id (updateVMCache acc.vmCache proc
                (!decide (vm.ID ∈ acc.vmsSeen))) = some v' ∧
              v'.CPUTimeDelta = filterSum cache (acc.runningPids ++ [e.pid])
                (fun p => decide (vmKey p = some id)) (fun p => p.CPUTimeDelta)
            by_cases hseen : vm.ID ∈ acc.vmsSeen
            · rw [if_pos hseen] at hid'
              have hrb : (!decide (vm.ID ∈ acc.vmsSeen)) = false := by
                simp [hseen]
              rw [updateVMCache_eq_some acc.vmCache _ hv, hrb]
              obtain ⟨vOld, hlookOld, hsumOld⟩ := hvmSeen id hid'
              by_cases hidv : id = vm.ID
              · subst hidv
                refine ⟨_, alookup_aupdate_self _ _ _, ?_⟩
                rw [vmAccum_delta_noreset, hlookOld, Option.getD_some]
                rw [hvmsum_eq, hsumOld]
              · refine ⟨vOld, ?_, ?_⟩
                · rw [alookup_aupdate_ne _ _ _ _ hidv]
                  exact hlookOld
                · rw [hvmsum_ne id hidv]
                  exact hsumOld
            · rw [if_neg hseen] at hid'
              have hrb : (!decide (vm.ID ∈ acc.vmsSeen)) = true := by
                simp [hseen]
              rw [updateVMCache_eq_some acc.vmCache _ hv, hrb]
              rcases List.mem_append.1 hid' with hin | hin
              · have hidv : id ≠ vm.ID := fun hh => hseen (hh ▸ hin)
                obtain ⟨vOld, hlookOld, hsumOld⟩ := hvmSeen id hin
                refine ⟨vOld, ?_, ?_⟩
                · rw [alookup_aupdate_ne _ _ _ _ hidv]
                  exact hlookOld
                · rw [hvmsum_ne id hidv]
                  exact hsumOld
              · have hidv : id = vm.ID := List.mem_singleton.1 hin
                subst hidv
                refine ⟨_, alookup_aupdate_self _ _ _, ?_⟩
                rw [vmAccum_delta_reset, hvmsum_eq, hvmUnseen vm.ID hseen, zero_add]
          · intro id hid
            have hid' : id ∉ (if vm.ID ∈ acc.vmsSeen then acc.vmsSeen
                else acc.vmsSeen ++ [vm.ID]) := hid
            rw [vmSumOf_mk]
            by_cases hseen : vm.ID ∈ acc.vmsSeen
            · rw [if_pos hseen] at hid'
              have hidv : id ≠ vm.ID := fun hh => hid' (hh ▸ hseen)
              rw [hvmsum_ne id hidv]
              exact hvmUnseen id hid'
            · rw [if_neg hseen] at hid'
              have hidn : id ∉ acc.vmsSeen :=
                fun hh => hid' (List.mem_append.2 (Or.inl hh))
              have hidv : id ≠ vm.ID := fun hh =>
                hid' (List.mem_append.2 (Or.inr (by rw [hh]; exact List.mem_singleton_self _)))
              rw [hvmsum_ne id hidv]
              exact hvmUnseen id hidn
        | none =>
          have hck : containerKey proc = none := containerKey_eq_none hc
          have hvk : vmKey proc = none := vmKey_eq_none hc hv
          have hstep : accountProcess
              { acc with procCache := cache,
                         runningPids := acc.runningPids ++ [e.pid] } proc
            = { acc with procCache := cache,
                         runningPids := acc.runningPids ++ [e.pid] } := by
            unfold accountProcess
            rw [hc, hv]
          rw [hstep]
          have hctrsum : ∀ id, filterSum cache (acc.runningPids ++ [e.pid])
              (fun p => decide (containerKey p = some id)) (fun p => p.CPUTimeDelta)
              = filterSum acc.procCache acc.runningPids
                  (fun p => decide (containerKey p = some id)) (fun p => p.CPUTimeDelta) := by
            intro id
            rw [hadd, if_neg (by rw [hck]; simp), add_zero]
          have hvmsum : ∀ id, filterSum cache (acc.runningPids ++ [e.pid])
              (fun p => decide (vmKey p = some id)) (fun p => p.CPUTimeDelta)
              = filterSum acc.procCache acc.runningPids
                  (fun p => decide (vmKey p = some id)) (fun p => p.CPUTimeDelta) := by
            intro id
            rw [hadd, if_neg (by rw [hvk]; simp), add_zero]
          refine ⟨hnpc1, h.ncc, h.nvc, hrun1, ?_, ?_, ?_, ?_⟩
          · intro id hid
            obtain ⟨c, hcl, hsum⟩ := hctrSeen id hid
            refine ⟨c, hcl, ?_⟩
            rw [ctrSumOf_mk, hctrsum id]
            exact hsum
          · intro id hid
            rw [ctrSumOf_mk, hctrsum id]
            exact hctrUnseen id hid
          · intro id hid
            obtain ⟨v, hvl, hsum⟩ := hvmSeen id hid
            refine ⟨v, hvl, ?_⟩
            rw [vmSumOf_mk, hvmsum id]
            exact hsum
          · intro id hid
            rw [vmSumOf_mk, hvmsum id]
            exact hvmUnseen id hid

theorem nodeSumOf_accountProcess (acc : RefreshAcc) (proc : Process) :
    nodeSumOf (accountProcess acc proc) = nodeSumOf acc := by
  unfold nodeSumOf
  rw [accountProcess_procCache, accountProcess_runningPids]

theorem refreshLoop_inv : ∀ (procs : List ProcInfo) (acc : RefreshAcc),
    LoopInv acc → (∀ e ∈ procs, e.pid ∉ acc.runningPids) →
    ((procs.map (·.pid)).Nodup) →
    LoopInv (procs.foldl refreshStep acc) := by
  intro procs
  induction procs with
  | nil => intro acc h _ _; exact h
  | cons e rest ih =>
    intro acc h hf hn
    rw [List.map_cons, List.nodup_cons] at hn
    obtain ⟨hene, hrn⟩ := hn
    have hfe : e.pid ∉ acc.runningPids := hf e (List.mem_cons_self _ _)
    rw [List.foldl_cons]
    apply ih (refreshStep acc e) (refreshStep_inv acc e h hfe) _ hrn
    intro e' he'
    have hne : e'.pid ≠ e.pid := by
      intro hh
      exact hene (hh ▸ List.mem_map_of_mem (·.pid) he')
    rcases refreshStep_runningPids_cases acc e with hcs | hcs <;> rw [hcs]
    · exact hf e' (List.mem_cons_of_mem _ he')
    · intro hmem
      rcases List.mem_append.1 hmem with hm | hm
      · exact hf e' (List.mem_cons_of_mem _ he') hm
      · exact hne (List.mem_singleton.1 hm)

theorem refreshLoop_nodeSum : ∀ (procs : List ProcInfo) (acc : RefreshAcc),
    (∀ e ∈ procs, e.pid ∉ acc.runningPids) →
    ((procs.map (·.pid)).Nodup) →
    keysNodup acc.procCache →
    nodeSumOf (procs.foldl refreshStep acc)
      = nodeSumOf acc + (procs.map (fun e => cycleDeltaTerm acc.procCache e)).sum := by
  intro procs
  induction procs with
  | nil => intro acc _ _ _; simp
  | cons e rest ih =>
    intro acc hf hn hk
    rw [List.map_cons, List.nodup_cons] at hn
    obtain ⟨hene, hrn⟩ := hn
    have hfe : e.pid ∉ acc.runningPids := hf e (List.mem_cons_self _ _)
    have hstep : nodeSumOf (refreshStep acc e)
        = nodeSumOf acc + cycleDeltaTerm acc.procCache e := by
      cases hu : updateProcessCache acc.procCache e with
      | mk cache r =>
        have hfst : cache = (updateProcessCache acc.procCache e).1 := by rw [hu]
        cases r with
        | error msg =>
          have hterm : cycleDeltaTerm acc.procCache e = 0 := by
            unfold cycleDeltaTerm cycleOutcome
            rw [hu]
          rw [refreshStep_eq_error hu, hterm, add_zero, nodeSumOf_mk]
          rw [hfst, filterSum_upc_stable _ _ _ _ _ hfe]
          rfl
        | ok proc =>
          have hterm : cycleDeltaTerm acc.procCache e = proc.CPUTimeDelta := by
            unfold cycleDeltaTerm cycleOutcome
            rw [hu]
          have hok : (updateProcessCache acc.procCache e).2 = .ok proc := by rw [hu]
          have hcache : cache = aupdate e.pid proc acc.procCache := by
            rw [hfst, updateProcessCache_ok_fst hok]
          rw [refreshStep_eq_ok hu, if_neg hfe, nodeSumOf_accountProcess,
            nodeSumOf_mk, hcache]
          rw [filterSum_aupdate_append _ _ _ _ _ _ hfe hk]
          rw [hterm, if_pos rfl]
          rfl
    have hf' : ∀ e' ∈ rest, e'.pid ∉ (refreshStep acc e).runningPids := by
      intro e' he'
      have hne : e'.pid ≠ e.pid := by
        intro hh
        exact hene (hh ▸ List.mem_map_of_mem (·.pid) he')
      rcases refreshStep_runningPids_cases acc e with hcs | hcs <;> rw [hcs]
      · exact hf e' (List.mem_cons_of_mem _ he')
      · intro hmem
        rcases List.mem_append.1 hmem with hm | hm
        · exact hf e' (List.mem_cons_of_mem _ he') hm
        · exact hne (List.mem_singleton.1 hm)
    have hcongr : ∀ e' ∈ rest,
        cycleDeltaTerm (refreshStep acc e).procCache e'
          = cycleDeltaTerm acc.procCache e' := by
      intro e' he'
      have hne : e'.pid ≠ e.pid := by
        intro hh
        exact hene (hh ▸ List.mem_map_of_mem (·.pid) he')
      unfold cycleDeltaTerm cycleOutcome
      rw [updateProcessCache_snd_congr e'
        (refreshStep_procCache_alookup_ne acc e e'.pid hne)]
    rw [List.foldl_cons,
      ih (refreshStep acc e) hf' hrn (refreshStep_keysNodup acc e hk),
      List.map_congr_left hcongr, hstep, List.map_cons, List.sum_cons]
    ring

theorem refreshLoop_absent : ∀ (procs : List ProcInfo) (acc : RefreshAcc) (pid : ℕ),
    alookup pid acc.procCache = none → pid ∉ acc.runningPids →
    (∀ e ∈ procs, e.pid = pid → (newProcess e).isOk = false) →
    alookup pid ((procs.foldl refreshStep acc).procCache) = none ∧
      pid ∉ (procs.foldl refreshStep acc).runningPids := by
  intro procs
  induction procs with
  | nil => intro acc pid h1 h2 _; exact ⟨h1, h2⟩
  | cons e rest ih =>
    intro acc pid h1 h2 hfail
    have hstep2 : alookup pid (refreshStep acc e).procCache = none ∧
        pid ∉ (refreshStep acc e).runningPids := by
      by_cases hpe : e.pid = pid
      · have hnf := hfail e (List.mem_cons_self _ _) hpe
        have hl : alookup e.pid acc.procCache = none := by rw [hpe]; exact h1
        cases hne : newProcess e with
        | ok q =>
          rw [hne] at hnf
          have hok : (Except.ok q : Except String Process).isOk = true := rfl
          rw [hok] at hnf
          exact absurd hnf (by decide)
        | error msg =>
          have hu : updateProcessCache acc.procCache e
              = (acc.procCache, .error msg) := by
            rw [updateProcessCache_eq_none hl, hne]
          rw [refreshStep_eq_error hu]
          exact ⟨h1, h2⟩
      · constructor
        · rw [refreshStep_procCache_alookup_ne acc e pid (fun hh => hpe hh.symm)]
          exact h1
        · rcases refreshStep_runningPids_cases acc e with hcs | hcs <;> rw [hcs]
          · exact h2
          · intro hmem
            rcases List.mem_append.1 hmem with hm | hm
            · exact h2 hm
            · exact hpe (List.mem_singleton.1 hm).symm
    rw [List.foldl_cons]
    exact ih (refreshStep acc e) pid hstep2.1 hstep2.2
      (fun e' he' => hfail e' (List.mem_cons_of_mem _ he'))

theorem Refresh_state_procCache (st : InformerState) (procs : List ProcInfo) :
    (Refresh st procs).1.procCache
      = (refreshAccOf st procs).procCache.filter
          (fun e => decide (e.1 ∈ (refreshAccOf st procs).runningPids)) := rfl

theorem Refresh_state_containerCache (st : InformerState) (procs : List ProcInfo) :
    (Refresh st procs).1.containerCache
      = (refreshAccOf st procs).containerCache.filter
          (fun e => decide (e.1 ∈ (refreshAccOf st procs).containersSeen)) := rfl

theorem Refresh_state_vmCache (st : InformerState) (procs : List ProcInfo) :
    (Refresh st procs).1.vmCache
      = (refreshAccOf st procs).vmCache.filter
          (fun e => decide (e.1 ∈ (refreshAccOf st procs).vmsSeen)) := rfl

theorem Refresh_processes_Running (st : InformerState) (procs : List ProcInfo) :
    (Refresh st procs).2.processes.Running
      = (refreshAccOf st procs).procCache.filter
          (fun e => decide (e.1 ∈ (refreshAccOf st procs).runningPids)) := rfl

theorem Refresh_processes_Terminated (st : InformerState) (procs : List ProcInfo) :
    (Refresh st procs).2.processes.Terminated
      = (refreshAccOf st procs).procCache.filter
          (fun e => !decide (e.1 ∈ (refreshAccOf st procs).runningPids)) := rfl

theorem Refresh_NodeCPUTimeDelta (st : InformerState) (procs : List ProcInfo) :
    (Refresh st procs).2.processes.NodeCPUTimeDelta
      = (((refreshAccOf st procs).procCache.filter
            (fun e => decide (e.1 ∈ (refreshAccOf st procs).runningPids))).map
          (fun e => e.2.CPUTimeDelta)).sum := rfl

theorem Refresh_containers_Running (st : InformerState) (procs : List ProcInfo) :
    (Refresh st procs).2.containers.Running
      = (refreshAccOf st procs).containerCache.filter
          (fun e => decide (e.1 ∈ (refreshAccOf st procs).containersSeen)) := rfl

theorem Refresh_containers_Terminated (st : InformerState) (procs : List ProcInfo) :
    (Refresh st procs).2.containers.Terminated
      = (refreshAccOf st procs).containerCache.filter
          (fun e => !decide (e.1 ∈ (refreshAccOf st procs).containersSeen)) := rfl

theorem Refresh_vms_Running (st : InformerState) (procs : List ProcInfo) :
    (Refresh st procs).2.vms.Running
      = (refreshAccOf st procs).vmCache.filter
          (fun e => decide (e.1 ∈ (refreshAccOf st procs).vmsSeen)) := rfl

theorem Refresh_vms_Terminated (st : InformerState) (procs : List ProcInfo) :
    (Refresh st procs).2.vms.Terminated
      = (refreshAccOf st procs).vmCache.filter
          (fun e => !decide (e.1 ∈ (refreshAccOf st procs).vmsSeen)) := rfl

theorem Refresh_refreshErrs (st : InformerState) (procs : List ProcInfo) :
    (Refresh st procs).2.refreshErrs = (refreshAccOf st procs).refreshErrs := rfl

theorem nodeSumOf_eq_published (acc : RefreshAcc) :
    ((acc.procCache.filter (fun e => decide (e.1 ∈ acc.runningPids))).map
        (fun e => e.2.CPUTimeDelta)).sum = nodeSumOf acc := by
  unfold nodeSumOf filterSum
  have hf : acc.procCache.filter (fun e => decide (e.1 ∈ acc.runningPids))
      = acc.procCache.filter
          (fun e => decide (e.1 ∈ acc.runningPids) && (fun _ : Process => true) e.2) := by
    apply List.filter_congr
    intro a _
    simp
  rw [hf]

theorem filterSum_eq_published (cache : List (ℕ × Process)) (running : List ℕ)
    (P : Process → Bool) (w : Process → ℚ) :
    filterSum cache running P w
      = (((cache.filter (fun e => decide (e.1 ∈ running))).filter
            (fun e => P e.2)).map (fun e => w e.2)).sum := by
  unfold filterSum
  rw [List.filter_filter]
  congr 1
  congr 1
  apply List.filter_congr
  intro a _
  exact Bool.and_comm _ _

theorem initialAcc_inv (st : InformerState) (h1 : keysNodup st.procCache)
    (h2 : keysNodup st.containerCache) (h3 : keysNodup st.vmCache) :
    LoopInv (initialAcc st) := by
  refine ⟨h1, h2, h3, List.nodup_nil, ?_, ?_, ?_, ?_⟩
  · intro id hid
    exact absurd hid (List.not_mem_nil id)
  · intro id _
    exact filterSum_nil_running _ _ _
  · intro id hid
    exact absurd hid (List.not_mem_nil id)
  · intro id _
    exact filterSum_nil_running _ _ _

end Resource

/-! ### Lemmas about the power-attribution engine -/

namespace Monitor

theorem vmPowerEntry_Zones (vms : Resource.VirtualMachines)
    (prev newSnapshot : Snapshot) (id : String) (c : Resource.VirtualMachine) :
    (vmPowerEntry vms prev newSnapshot id c).Zones
      = newSnapshot.Node.Zones.map (fun e =>
          (e.1, vmZoneUsage vms.NodeCPUTimeDelta c e.2
                  (alookup id prev.VirtualMachines) e.1)) := rfl

theorem calculateVMPower_zone_lookup (vms : Resource.VirtualMachines)
    (prev newSnapshot : Snapshot) (id zone : String)
    (c : Resource.VirtualMachine) (u : Usage)
    (hc : alookup id vms.Running = some c)
    (hz : alookup zone newSnapshot.Node.Zones = some u) :
    ∃ v, alookup id (calculateVMPower vms prev newSnapshot) = some v ∧
      alookup zone v.Zones
        = some (vmZoneUsage vms.NodeCPUTimeDelta c u
            (alookup id prev.VirtualMachines) zone) := by
  have hne : ¬vms.Running = [] := by
    intro hh
    rw [hh] at hc
    exact absurd hc (by simp [alookup])
  refine ⟨vmPowerEntry vms prev newSnapshot id c, ?_, ?_⟩
  · unfold calculateVMPower
    rw [if_neg hne]
    rw [alookup_map_entry (fun a b => vmPowerEntry vms prev newSnapshot a b) id
      vms.Running]
    rw [hc]
    rfl
  · rw [vmPowerEntry_Zones]
    rw [alookup_map_entry (fun a b => vmZoneUsage vms.NodeCPUTimeDelta c b
      (alookup id prev.VirtualMachines) a) zone newSnapshot.Node.Zones]
    rw [hz]
    rfl

theorem vmZoneUsage_guard (nodeCPUTimeDelta : ℚ) (c : Resource.VirtualMachine)
    (u : Usage) (prevVM : Option VMPower) (zone : String)
    (hg : u.Power = 0 ∨ u.Delta = 0 ∨ nodeCPUTimeDelta = 0) :
    vmZoneUsage nodeCPUTimeDelta c u prevVM zone = ⟨0, 0, 0⟩ := by
  unfold vmZoneUsage
  rw [if_pos hg]

theorem vmZoneUsage_attrib_prev (nodeCPUTimeDelta : ℚ)
    (c : Resource.VirtualMachine) (u : Usage) (pv : VMPower) (pu : Usage)
    (zone : String)
    (hg : ¬(u.Power = 0 ∨ u.Delta = 0 ∨ nodeCPUTimeDelta = 0))
    (hpu : alookup zone pv.Zones = some pu) :
    vmZoneUsage nodeCPUTimeDelta c u (some pv) zone
      = ⟨c.CPUTimeDelta / nodeCPUTimeDelta * u.Power,
         c.CPUTimeDelta / nodeCPUTimeDelta * u.Delta,
         pu.Absolute + c.CPUTimeDelta / nodeCPUTimeDelta * u.Delta⟩ := by
  unfold vmZoneUsage
  rw [if_neg hg]
  simp only [hpu]

theorem vmZoneUsage_attrib_noprevzone (nodeCPUTimeDelta : ℚ)
    (c : Resource.VirtualMachine) (u : Usage) (pv : VMPower) (zone : String)
    (hg : ¬(u.Power = 0 ∨ u.Delta = 0 ∨ nodeCPUTimeDelta = 0))
    (hpu : alookup zone pv.Zones = none) :
    vmZoneUsage nodeCPUTimeDelta c u (some pv) zone
      = ⟨c.CPUTimeDelta / nodeCPUTimeDelta * u.Power,
         c.CPUTimeDelta / nodeCPUTimeDelta * u.Delta,
         c.CPUTimeDelta / nodeCPUTimeDelta * u.Delta⟩ := by
  unfold vmZoneUsage
  rw [if_neg hg]
  simp only [hpu]

theorem vmZoneUsage_attrib_noprev (nodeCPUTimeDelta : ℚ)
    (c : Resource.VirtualMachine) (u : Usage) (zone : String)
    (hg : ¬(u.Power = 0 ∨ u.Delta = 0 ∨ nodeCPUTimeDelta = 0)) :
    vmZoneUsage nodeCPUTimeDelta c u none zone
      = ⟨c.CPUTimeDelta / nodeCPUTimeDelta * u.Power,
         c.CPUTimeDelta / nodeCPUTimeDelta * u.Delta,
         c.CPUTimeDelta / nodeCPUTimeDelta * u.Delta⟩ := by
  unfold vmZoneUsage
  rw [if_neg hg]

end Monitor

end Kepler

/-! ### The claims -/

open Kepler

/-- C2: in per-zone VM power attribution, if the node zone's Power is 0, or
the node zone's Delta is 0, or NodeCPUTimeDelta is 0, the VM's Power and
Delta for that zone are exactly 0, regardless of the VM's CPU-time delta. -/
theorem kepler_c2 :
    ∀ (vms : Resource.VirtualMachines) (prev newSnapshot : Monitor.Snapshot)
      (id zone : String) (c : Resource.VirtualMachine) (u : Monitor.Usage),
    alookup id vms.Running = some c →
    alookup zone newSnapshot.Node.Zones = some u →
    (u.Power = 0 ∨ u.Delta = 0 ∨ vms.NodeCPUTimeDelta = 0) →
    ∃ v w, alookup id (Monitor.calculateVMPower vms prev newSnapshot) = some v ∧
      alookup zone v.Zones = some w ∧ w.Power = 0 ∧ w.Delta = 0 := by
  intro vms prev newSnapshot id zone c u hc hz hg
  obtain ⟨v, hv, hw⟩ :=
    Monitor.calculateVMPower_zone_lookup vms prev newSnapshot id zone c u hc hz
  rw [Monitor.vmZoneUsage_guard _ _ _ _ _ hg] at hw
  exact ⟨v, ⟨0, 0, 0⟩, hv, hw, rfl, rfl⟩

/-- C2 witness: the guard case at a concrete cycle (node zone Power 0). -/
theorem kepler_c2_witness :
    alookup "vm1" Fix.c2vms.Running = some Fix.c2res ∧
    alookup "pkg" Fix.c2new.Node.Zones = some ⟨0, 7, 9⟩ ∧
    ((⟨0, 7, 9⟩ : Monitor.Usage).Power = 0 ∨
      (⟨0, 7, 9⟩ : Monitor.Usage).Delta = 0 ∨ Fix.c2vms.NodeCPUTimeDelta = 0) ∧
    (∃ v w, alookup "vm1"
        (Monitor.calculateVMPower Fix.c2vms Fix.c2prev Fix.c2new) = some v ∧
      alookup "pkg" v.Zones = some w ∧ w.Power = 0 ∧ w.Delta = 0) :=
  ⟨by decide, by decide, by decide,
    kepler_c2 Fix.c2vms Fix.c2prev Fix.c2new "vm1" "pkg" Fix.c2res ⟨0, 7, 9⟩
      (by decide) (by decide) (by decide)⟩

/-- C3: when no zero-guard condition holds, the attributed values are
ratio = CPUTimeDelta / NodeCPUTimeDelta (not clamped), Power = ratio × node
zone Power, Delta = ratio × node zone Delta. -/
theorem kepler_c3 :
    ∀ (vms : Resource.VirtualMachines) (prev newSnapshot : Monitor.Snapshot)
      (id zone : String) (c : Resource.VirtualMachine) (u : Monitor.Usage),
    alookup id vms.Running = some c →
    alookup zone newSnapshot.Node.Zones = some u →
    ¬(u.Power = 0 ∨ u.Delta = 0 ∨ vms.NodeCPUTimeDelta = 0) →
    ∃ v w, alookup id (Monitor.calculateVMPower vms prev newSnapshot) = some v ∧
      alookup zone v.Zones = some w ∧
      w.Power = c.CPUTimeDelta / vms.NodeCPUTimeDelta * u.Power ∧
      w.Delta = c.CPUTimeDelta / vms.NodeCPUTimeDelta * u.Delta := by
  intro vms prev newSnapshot id zone c u hc hz hg
  obtain ⟨v, hv, hw⟩ :=
    Monitor.calculateVMPower_zone_lookup vms prev newSnapshot id zone c u hc hz
  have hPD : (Monitor.vmZoneUsage vms.NodeCPUTimeDelta c u
        (alookup id prev.VirtualMachines) zone).Power
          = c.CPUTimeDelta / vms.NodeCPUTimeDelta * u.Power ∧
      (Monitor.vmZoneUsage vms.NodeCPUTimeDelta c u
        (alookup id prev.VirtualMachines) zone).Delta
          = c.CPUTimeDelta / vms.NodeCPUTimeDelta * u.Delta := by
    cases hpv : alookup id prev.VirtualMachines with
    | none =>
      rw [Monitor.vmZoneUsage_attrib_noprev _ _ _ _ hg]
      exact ⟨rfl, rfl⟩
    | some pv =>
      cases hpu : alookup zone pv.Zones with
      | some pu =>
        rw [Monitor.vmZoneUsage_attrib_prev _ _ _ _ _ _ hg hpu]
        exact ⟨rfl, rfl⟩
      | none =>
        rw [Monitor.vmZoneUsage_attrib_noprevzone _ _ _ _ _ hg hpu]
        exact ⟨rfl, rfl⟩
  exact ⟨v, _, hv, hw, hPD.1, hPD.2⟩

/-- C3 witness: the spec scenario — node zone Power 100, Delta 50,
NodeCPUTimeDelta 10, VM CPUTimeDelta 2 gives Power 20 and Delta 10 (the
final `decide` conjunct pins the whole computed snapshot entry, whose
cold-start Absolute is 10). -/
theorem kepler_c3_witness :
    alookup "vm1" Fix.c3vms.Running = some Fix.c3res ∧
    alookup "pkg" Fix.c3new.Node.Zones = some ⟨100, 50, 500⟩ ∧
    ¬((⟨100, 50, 500⟩ : Monitor.Usage).Power = 0 ∨
      (⟨100, 50, 500⟩ : Monitor.Usage).Delta = 0 ∨
      Fix.c3vms.NodeCPUTimeDelta = 0) ∧
    (∃ v w, alookup "vm1"
        (Monitor.calculateVMPower Fix.c3vms Fix.c3prev Fix.c3new) = some v ∧
      alookup "pkg" v.Zones = some w ∧
      w.Power = Fix.c3res.CPUTimeDelta / Fix.c3vms.NodeCPUTimeDelta * (100 : ℚ) ∧
      w.Delta = Fix.c3res.CPUTimeDelta / Fix.c3vms.NodeCPUTimeDelta * (50 : ℚ)) ∧
    Monitor.calculateVMPower Fix.c3vms Fix.c3prev Fix.c3new = [("vm1", Fix.c3out)] :=
  ⟨by decide, by decide, by decide,
    kepler_c3 Fix.c3vms Fix.c3prev Fix.c3new "vm1" "pkg" Fix.c3res ⟨100, 50, 500⟩
      (by decide) (by decide) (by decide),
    by norm_num [Monitor.calculateVMPower, Monitor.vmPowerEntry,
      Monitor.vmZoneUsage, Fix.c3vms, Fix.c3res, Fix.c3prev, Fix.c3new,
      Fix.c3out, alookup]⟩

/-- C1 counterexample: a (VM, zone) pair with previous Absolute 5 goes
through a zero-guard cycle (node zone Power 0); the code publishes
Absolute 0 and Delta 0, but the claim requires
Absolute_t = Absolute_{t-1} + Delta_t = 5 + 0. -/
theorem kepler_c1_counterexample :
    Monitor.calculateVMPower Fix.c1vms Fix.c1prev Fix.c1new
      = [("vm1", Fix.c1out)] ∧
    alookup "pkg" Fix.c1out.Zones = some ⟨0, 0, 0⟩ ∧
    alookup "vm1" Fix.c1prev.VirtualMachines = some Fix.c1prevVM ∧
    alookup "pkg" Fix.c1prevVM.Zones = some ⟨3, 2, 5⟩ ∧
    ((0 : ℚ) ≠ 5 + 0) := by
  refine ⟨by decide, by decide, by decide, by decide, by norm_num⟩

/-- C1 (amended): on a non-guard cycle, a (VM, zone) pair with a previous
snapshot gets Absolute_t = Absolute_{t-1} + Delta_t; on a zero-guard cycle
the pair's whole usage (Power, Delta and Absolute) is reset to zero, so the
accumulation invariant does not survive guard cycles; a pair without a
previous snapshot starts with Absolute = Delta on every branch. -/
theorem kepler_c1_amended :
    ∀ (vms : Resource.VirtualMachines) (prev newSnapshot : Monitor.Snapshot)
      (id zone : String) (c : Resource.VirtualMachine) (u : Monitor.Usage),
    alookup id vms.Running = some c →
    alookup zone newSnapshot.Node.Zones = some u →
    ∃ v w, alookup id (Monitor.calculateVMPower vms prev newSnapshot) = some v ∧
      alookup zone v.Zones = some w ∧
      (¬(u.Power = 0 ∨ u.Delta = 0 ∨ vms.NodeCPUTimeDelta = 0) →
        ∀ pv pu, alookup id prev.VirtualMachines = some pv →
          alookup zone pv.Zones = some pu →
          w.Absolute = pu.Absolute + w.Delta) ∧
      ((u.Power = 0 ∨ u.Delta = 0 ∨ vms.NodeCPUTimeDelta = 0) →
        w = ⟨0, 0, 0⟩) ∧
      (alookup id prev.VirtualMachines = none → w.Absolute = w.Delta) ∧
      (∀ pv, alookup id prev.VirtualMachines = some pv →
        alookup zone pv.Zones = none → w.Absolute = w.Delta) := by
  intro vms prev newSnapshot id zone c u hc hz
  obtain ⟨v, hv, hw⟩ :=
    Monitor.calculateVMPower_zone_lookup vms prev newSnapshot id zone c u hc hz
  refine ⟨v, _, hv, hw, ?_, ?_, ?_, ?_⟩
  · intro hg pv pu hpv hpu
    rw [hpv, Monitor.vmZoneUsage_attrib_prev _ _ _ _ _ _ hg hpu]
  · intro hg
    rw [Monitor.vmZoneUsage_guard _ _ _ _ _ hg]
  · intro hpv
    by_cases hg : u.Power = 0 ∨ u.Delta = 0 ∨ vms.NodeCPUTimeDelta = 0
    · rw [Monitor.vmZoneUsage_guard _ _ _ _ _ hg]
    · rw [hpv, Monitor.vmZoneUsage_attrib_noprev _ _ _ _ hg]
  · intro pv hpv hpu
    by_cases hg : u.Power = 0 ∨ u.Delta = 0 ∨ vms.NodeCPUTimeDelta = 0
    · rw [Monitor.vmZoneUsage_guard _ _ _ _ _ hg]
    · rw [hpv, Monitor.vmZoneUsage_attrib_noprevzone _ _ _ _ _ hg hpu]

/-- C1 witness: a non-guard cycle over a pair with previous Absolute 5 and
new Delta 10 yields Absolute 15 = 5 + 10 (pinned by the final `decide`). -/
theorem kepler_c1_witness :
    alookup "vm1" Fix.c1vms.Running = some Fix.c1res ∧
    alookup "pkg" Fix.c1wnew.Node.Zones = some ⟨100, 50, 500⟩ ∧
    (∃ v w, alookup "vm1"
        (Monitor.calculateVMPower Fix.c1vms Fix.c1prev Fix.c1wnew) = some v ∧
      alookup "pkg" v.Zones = some w ∧
      (¬((⟨100, 50, 500⟩ : Monitor.Usage).Power = 0 ∨
          (⟨100, 50, 500⟩ : Monitor.Usage).Delta = 0 ∨
          Fix.c1vms.NodeCPUTimeDelta = 0) →
        ∀ pv pu, alookup "vm1" Fix.c1prev.VirtualMachines = some pv →
          alookup "pkg" pv.Zones = some pu →
          w.Absolute = pu.Absolute + w.Delta) ∧
      (((⟨100, 50, 500⟩ : Monitor.Usage).Power = 0 ∨
          (⟨100, 50, 500⟩ : Monitor.Usage).Delta = 0 ∨
          Fix.c1vms.NodeCPUTimeDelta = 0) →
        w = ⟨0, 0, 0⟩) ∧
      (alookup "vm1" Fix.c1prev.VirtualMachines = none →
        w.Absolute = w.Delta) ∧
      (∀ pv, alookup "vm1" Fix.c1prev.VirtualMachines = some pv →
        alookup "pkg" pv.Zones = none → w.Absolute = w.Delta)) ∧
    Monitor.calculateVMPower Fix.c1vms Fix.c1prev Fix.c1wnew
      = [("vm1", Fix.c1wout)] :=
  ⟨by decide, by decide,
    kepler_c1_amended Fix.c1vms Fix.c1prev Fix.c1wnew "vm1" "pkg" Fix.c1res
      ⟨100, 50, 500⟩ (by decide) (by decide),
    by norm_num [Monitor.calculateVMPower, Monitor.vmPowerEntry,
      Monitor.vmZoneUsage, Fix.c1vms, Fix.c1res, Fix.c1prev, Fix.c1prevVM,
      Fix.c1wnew, Fix.c1wout, alookup]⟩

/-- C7: if the live-container query fails during the eviction step, the
eviction pass is skipped and the container stats map is returned exactly as
it was; the error is not surfaced (the function's only output is the map). -/
theorem kepler_c7 :
    ∀ (cs : List (String × Collector.ContainerStats)) (found : List String)
      (err : String),
    Collector.handleInactiveContainers cs found (.error err) = cs := by
  intro cs found err
  unfold Collector.handleInactiveContainers
  split
  · rfl
  · rfl

/-- C6 counterexample: twelve cached containers, one of them ("c0") found
via a surviving process, live set empty; the threshold passes (12 − 1 > 10)
and the code deletes every container absent from the live set — including
"c0", which the claim says must be kept because it is in containersFound. -/
theorem kepler_c6_counterexample :
    ("c0" ∈ Fix.c6found) ∧
    alookup "c0"
      (Collector.handleInactiveContainers Fix.c6stats Fix.c6found (.ok []))
      = none := by
  refine ⟨by decide, by decide⟩

/-- C6 (amended): the eviction pass runs iff cached − found exceeds the
threshold of 10; when it runs and the live query succeeds, it keeps exactly
the reserved IDs and the containers in the live set — the containersFound
set plays no role in the deletion condition, only in the threshold. -/
theorem kepler_c6_amended :
    ∀ (cs : List (String × Collector.ContainerStats)) (found alive : List String),
    (((cs.length : ℤ) - (found.length : ℤ) ≤ Collector.maxInactiveContainers →
      Collector.handleInactiveContainers cs found (.ok alive) = cs)) ∧
    (Collector.maxInactiveContainers < (cs.length : ℤ) - (found.length : ℤ) →
      ∀ id c, ((id, c) ∈ Collector.handleInactiveContainers cs found (.ok alive) ↔
        ((id, c) ∈ cs ∧ (id = Collector.SystemProcessName ∨
          id = Collector.KernelProcessName ∨ id ∈ alive)))) := by
  intro cs found alive
  constructor
  · intro hle
    unfold Collector.handleInactiveContainers
    rw [if_pos hle]
  · intro hlt id c
    unfold Collector.handleInactiveContainers
    rw [if_neg (not_le.2 hlt)]
    simp [List.mem_filter, or_assoc]

/-- C6 witness: the spec's hysteresis scenario — 15 cached containers, 3
found running, live set of those 3 plus 2 others; the pass runs (12 > 10)
and exactly 10 containers are deleted, leaving the 5 live ones. -/
theorem kepler_c6_witness :
    (Collector.maxInactiveContainers
        < ((Fix.c6big.length : ℤ) - (Fix.c6found3.length : ℤ))) ∧
    (∀ id c, ((id, c) ∈ Collector.handleInactiveContainers Fix.c6big
        Fix.c6found3 (.ok Fix.c6alive5) ↔
      ((id, c) ∈ Fix.c6big ∧ (id = Collector.SystemProcessName ∨
        id = Collector.KernelProcessName ∨ id ∈ Fix.c6alive5)))) ∧
    Fix.c6big.length = 15 ∧
    (Collector.handleInactiveContainers Fix.c6big Fix.c6found3
        (.ok Fix.c6alive5)).length = 5 :=
  ⟨by decide,
    (kepler_c6_amended Fix.c6big Fix.c6found3 Fix.c6alive5).2 (by decide),
    by decide, by decide⟩

/-- C9: after every Refresh (error or not), each internal cache holds exactly
the keys of its published Running set, and each published Running set is
disjoint from its Terminated set, for processes, containers and VMs. -/
theorem kepler_c9 :
    ∀ (st : Resource.InformerState) (procs : List Resource.ProcInfo),
    (∀ pid, (alookup pid (Resource.Refresh st procs).1.procCache).isSome ↔
        (alookup pid (Resource.Refresh st procs).2.processes.Running).isSome) ∧
    (∀ pid, ¬((alookup pid (Resource.Refresh st procs).2.processes.Running).isSome ∧
        (alookup pid (Resource.Refresh st procs).2.processes.Terminated).isSome)) ∧
    (∀ id, (alookup id (Resource.Refresh st procs).1.containerCache).isSome ↔
        (alookup id (Resource.Refresh st procs).2.containers.Running).isSome) ∧
    (∀ id, ¬((alookup id (Resource.Refresh st procs).2.containers.Running).isSome ∧
        (alookup id (Resource.Refresh st procs).2.containers.Terminated).isSome)) ∧
    (∀ id, (alookup id (Resource.Refresh st procs).1.vmCache).isSome ↔
        (alookup id (Resource.Refresh st procs).2.vms.Running).isSome) ∧
    (∀ id, ¬((alookup id (Resource.Refresh st procs).2.vms.Running).isSome ∧
        (alookup id (Resource.Refresh st procs).2.vms.Terminated).isSome)) := by
  intro st procs
  refine ⟨?_, ?_, ?_, ?_, ?_, ?_⟩
  · intro pid
    rw [Resource.Refresh_state_procCache, Resource.Refresh_processes_Running]
  · intro pid h
    obtain ⟨ha, hb⟩ := h
    rw [Resource.Refresh_processes_Running] at ha
    rw [Resource.Refresh_processes_Terminated] at hb
    obtain ⟨v1, _, hf1⟩ := alookup_filter_isSome ha
    obtain ⟨v2, _, hf2⟩ := alookup_filter_isSome hb
    have hp1 : pid ∈ (Resource.refreshAccOf st procs).runningPids :=
      of_decide_eq_true hf1
    have hp2 : pid ∉ (Resource.refreshAccOf st procs).runningPids := by
      simpa using hf2
    exact hp2 hp1
  · intro id
    rw [Resource.Refresh_state_containerCache, Resource.Refresh_containers_Running]
  · intro id h
    obtain ⟨ha, hb⟩ := h
    rw [Resource.Refresh_containers_Running] at ha
    rw [Resource.Refresh_containers_Terminated] at hb
    obtain ⟨v1, _, hf1⟩ := alookup_filter_isSome ha
    obtain ⟨v2, _, hf2⟩ := alookup_filter_isSome hb
    have hp1 : id ∈ (Resource.refreshAccOf st procs).containersSeen :=
      of_decide_eq_true hf1
    have hp2 : id ∉ (Resource.refreshAccOf st procs).containersSeen := by
      simpa using hf2
    exact hp2 hp1
  · intro id
    rw [Resource.Refresh_state_vmCache, Resource.Refresh_vms_Running]
  · intro id h
    obtain ⟨ha, hb⟩ := h
    rw [Resource.Refresh_vms_Running] at ha
    rw [Resource.Refresh_vms_Terminated] at hb
    obtain ⟨v1, _, hf1⟩ := alookup_filter_isSome ha
    obtain ⟨v2, _, hf2⟩ := alookup_filter_isSome hb
    have hp1 : id ∈ (Resource.refreshAccOf st procs).vmsSeen :=
      of_decide_eq_true hf1
    have hp2 : id ∉ (Resource.refreshAccOf st procs).vmsSeen := by
      simpa using hf2
    exact hp2 hp1

/-- C10: if every read of a not-yet-cached PID fails during Refresh, no cache
entry is created for that PID and it appears in neither the published Running
nor the published Terminated set. -/
theorem kepler_c10 :
    ∀ (st : Resource.InformerState) (procs : List Resource.ProcInfo) (pid : ℕ),
    alookup pid st.procCache = none →
    (∀ e ∈ procs, e.pid = pid → (Resource.newProcess e).isOk = false) →
    alookup pid (Resource.Refresh st procs).1.procCache = none ∧
    alookup pid (Resource.Refresh st procs).2.processes.Running = none ∧
    alookup pid (Resource.Refresh st procs).2.processes.Terminated = none := by
  intro st procs pid h1 h2
  have h0 : alookup pid (Resource.initialAcc st).procCache = none := h1
  obtain ⟨hcache, _⟩ := Resource.refreshLoop_absent procs (Resource.initialAcc st)
    pid h0 (List.not_mem_nil pid) h2
  refine ⟨?_, ?_, ?_⟩
  · rw [Resource.Refresh_state_procCache]
    exact alookup_filter_eq_none hcache
  · rw [Resource.Refresh_processes_Running]
    exact alookup_filter_eq_none hcache
  · rw [Resource.Refresh_processes_Terminated]
    exact alookup_filter_eq_none hcache

/-- C10 witness: a first-seen PID 5 whose CPU-time read fails is absent from
the cache and from both published process sets. -/
theorem kepler_c10_witness :
    alookup 5 Fix.emptyState.procCache = none ∧
    (∀ e ∈ [Fix.c10proc], e.pid = 5 → (Resource.newProcess e).isOk = false) ∧
    (alookup 5 (Resource.Refresh Fix.emptyState [Fix.c10proc]).1.procCache = none ∧
     alookup 5 (Resource.Refresh Fix.emptyState
        [Fix.c10proc]).2.processes.Running = none ∧
     alookup 5 (Resource.Refresh Fix.emptyState
        [Fix.c10proc]).2.processes.Terminated = none) :=
  ⟨by decide, by decide,
    kepler_c10 Fix.emptyState [Fix.c10proc] 5 (by decide) (by decide)⟩

/-- C8 counterexample: a first-seen process whose container and VM lookups
both fail; Refresh surfaces the two errors joined, but the process is NOT
left in the process cache (no entry is created at all), contradicting the
claim that it stays cached with Type = Unknown. -/
theorem kepler_c8_counterexample :
    (Resource.Refresh Fix.emptyState [Fix.c8proc]).2.refreshErrs
      = some "failed to detect process type: ce\nve" ∧
    alookup 7 (Resource.Refresh Fix.emptyState [Fix.c8proc]).1.procCache = none := by
  refine ⟨by decide, by decide⟩

/-- C8 (amended): when both classification branches fail for a first-seen
process in a cycle, Refresh surfaces the two errors joined, and no cache
entry is created for that PID — it is absent from the cache and from both
published sets, so the next cycle treats it as brand-new and classification
is retried (rather than the process being kept with Type = Unknown). -/
theorem kepler_c8_amended :
    ∀ (st : Resource.InformerState) (e : Resource.ProcInfo)
      (t : ℚ) (comm exe ce ve : String),
    alookup e.pid st.procCache = none →
    e.cpuTime = .ok t → e.comm = .ok comm → e.executable = .ok exe →
    e.containerInfo = .error ce → e.vmInfo = .error ve →
    (Resource.Refresh st [e]).2.refreshErrs
        = some ("failed to detect process type: " ++ Resource.joinErrs ce ve) ∧
    alookup e.pid (Resource.Refresh st [e]).1.procCache = none ∧
    alookup e.pid (Resource.Refresh st [e]).2.processes.Running = none ∧
    alookup e.pid (Resource.Refresh st [e]).2.processes.Terminated = none := by
  intro st e t comm exe ce ve h1 ht hcm hex hci hvi
  have hcti : Resource.computeTypeInfoFromProc e
      = .error (Resource.joinErrs ce ve) := by
    unfold Resource.computeTypeInfoFromProc
    rw [hci, hvi]
  have hnp : Resource.newProcess e
      = .error ("failed to detect process type: " ++ Resource.joinErrs ce ve) := by
    simp [Resource.newProcess, Resource.populateProcessFields,
      Resource.initProcess, ht, hcm, hex, hcti]
  have hl : alookup e.pid (Resource.initialAcc st).procCache = none := h1
  have hu : Resource.updateProcessCache (Resource.initialAcc st).procCache e
      = ((Resource.initialAcc st).procCache,
         .error ("failed to detect process type: " ++ Resource.joinErrs ce ve)) := by
    rw [Resource.updateProcessCache_eq_none hl, hnp]
  have haccF : Resource.refreshAccOf st [e]
      = { Resource.initialAcc st with
          procCache := (Resource.initialAcc st).procCache,
          refreshErrs := Resource.joinErrOpt (Resource.initialAcc st).refreshErrs
            ("failed to detect process type: " ++ Resource.joinErrs ce ve) } := by
    show Resource.refreshStep (Resource.initialAcc st) e = _
    exact Resource.refreshStep_eq_error hu
  refine ⟨?_, ?_, ?_, ?_⟩
  · rw [Resource.Refresh_refreshErrs, haccF]
    rfl
  · rw [Resource.Refresh_state_procCache, haccF]
    exact alookup_filter_eq_none h1
  · rw [Resource.Refresh_processes_Running, haccF]
    exact alookup_filter_eq_none h1
  · rw [Resource.Refresh_processes_Terminated, haccF]
    exact alookup_filter_eq_none h1

/-- C8 witness: the amended behaviour at a concrete failing process. -/
theorem kepler_c8_witness :
    alookup Fix.c8proc.pid Fix.emptyState.procCache = none ∧
    Fix.c8proc.cpuTime = .ok 3 ∧
    Fix.c8proc.containerInfo = .error "ce" ∧
    Fix.c8proc.vmInfo = .error "ve" ∧
    ((Resource.Refresh Fix.emptyState [Fix.c8proc]).2.refreshErrs
        = some ("failed to detect process type: " ++ Resource.joinErrs "ce" "ve") ∧
     alookup Fix.c8proc.pid
        (Resource.Refresh Fix.emptyState [Fix.c8proc]).1.procCache = none ∧
     alookup Fix.c8proc.pid
        (Resource.Refresh Fix.emptyState [Fix.c8proc]).2.processes.Running = none ∧
     alookup Fix.c8proc.pid
        (Resource.Refresh Fix.emptyState [Fix.c8proc]).2.processes.Terminated = none) :=
  ⟨rfl, rfl, rfl, rfl,
    kepler_c8_amended Fix.emptyState Fix.c8proc 3 "x" "/x" "ce" "ve"
      rfl rfl rfl rfl rfl rfl⟩

/-- C4 counterexample: one brand-new process with cumulative CPU time 5s and
an empty previous cache. The published NodeCPUTimeDelta is 5, not 0 — but
the claim's sum over processes present in both the previous cache and the
running set is empty here, and the claim also asserts the value is 0 when no
previously-known process remains running. -/
theorem kepler_c4_counterexample :
    (Resource.Refresh Fix.emptyState
        [Fix.c4proc]).2.processes.NodeCPUTimeDelta = 5 ∧
    Fix.emptyState.procCache = [] ∧
    (Resource.Refresh Fix.emptyState
        [Fix.c4proc]).2.processes.NodeCPUTimeDelta ≠ 0 := by
  have h0 : (Resource.Refresh Fix.emptyState
      [Fix.c4proc]).2.processes.NodeCPUTimeDelta = ((5 : ℚ) - 0) + 0 := rfl
  refine ⟨?_, rfl, ?_⟩
  · rw [h0]
    norm_num
  · rw [h0]
    norm_num

/-- C4 (amended): the published NodeCPUTimeDelta is the sum of the updated
CPU-time deltas of ALL successfully processed running processes — including
processes seen for the first time this cycle, which contribute their full
cumulative CPU time (their delta against a zero baseline); the value is
nonnegative provided every reported cumulative CPU time is nonnegative and
at least the cached previous total. -/
theorem kepler_c4_amended :
    ∀ (st : Resource.InformerState) (procs : List Resource.ProcInfo),
    ((procs.map (·.pid)).Nodup) →
    keysNodup st.procCache →
    ((Resource.Refresh st procs).2.processes.NodeCPUTimeDelta
        = (procs.map (fun e => Resource.cycleDeltaTerm st.procCache e)).sum) ∧
    (∀ e ∈ procs, alookup e.pid st.procCache = none →
      ∀ q, Resource.cycleOutcome st.procCache e = .ok q →
        ∃ t, e.cpuTime = .ok t ∧ q.CPUTimeDelta = t) ∧
    ((∀ e ∈ procs, ∀ t, e.cpuTime = .ok t →
        0 ≤ t ∧ (∀ cached, alookup e.pid st.procCache = some cached →
          cached.CPUTotalTime ≤ t)) →
      0 ≤ (Resource.Refresh st procs).2.processes.NodeCPUTimeDelta) := by
  intro st procs hn hk
  have hsum : (Resource.Refresh st procs).2.processes.NodeCPUTimeDelta
      = (procs.map (fun e => Resource.cycleDeltaTerm st.procCache e)).sum := by
    rw [Resource.Refresh_NodeCPUTimeDelta, Resource.nodeSumOf_eq_published]
    have hloop := Resource.refreshLoop_nodeSum procs (Resource.initialAcc st)
      (fun e _ => List.not_mem_nil e.pid) hn hk
    rw [show Resource.nodeSumOf (Resource.refreshAccOf st procs)
        = Resource.nodeSumOf (procs.foldl Resource.refreshStep
            (Resource.initialAcc st)) from rfl]
    rw [hloop]
    have hz : Resource.nodeSumOf (Resource.initialAcc st) = 0 :=
      Resource.filterSum_nil_running _ _ _
    rw [hz, zero_add]
    rfl
  refine ⟨hsum, ?_, ?_⟩
  · intro e he hnone q hq
    unfold Resource.cycleOutcome at hq
    obtain ⟨t, ht, hd⟩ := Resource.updateProcessCache_ok_delta hq
    rw [hnone] at hd
    have hd' : q.CPUTimeDelta = t - 0 := hd
    exact ⟨t, ht, by rw [hd']; ring⟩
  · intro hmono
    rw [hsum]
    apply List.sum_nonneg
    intro x hx
    rcases List.mem_map.1 hx with ⟨e, he, hxe⟩
    rw [← hxe]
    unfold Resource.cycleDeltaTerm
    cases ho : Resource.cycleOutcome st.procCache e with
    | error msg => exact le_refl 0
    | ok q =>
      show (0 : ℚ) ≤ q.CPUTimeDelta
      unfold Resource.cycleOutcome at ho
      obtain ⟨t, ht, hd⟩ := Resource.updateProcessCache_ok_delta ho
      rw [hd]
      cases hl : alookup e.pid st.procCache with
      | none =>
        have hge := (hmono e he t ht).1
        show (0 : ℚ) ≤ t - 0
        rw [sub_zero]
        exact hge
      | some cached =>
        have hle := (hmono e he t ht).2 cached hl
        show (0 : ℚ) ≤ t - cached.CPUTotalTime
        exact sub_nonneg.2 hle

/-- C4 witness: the amended characterisation at a concrete one-process
cycle (the brand-new process contributes its full 5s). -/
theorem kepler_c4_witness :
    (([Fix.c4proc].map (·.pid)).Nodup) ∧
    keysNodup Fix.emptyState.procCache ∧
    (((Resource.Refresh Fix.emptyState [Fix.c4proc]).2.processes.NodeCPUTimeDelta
        = ([Fix.c4proc].map
            (fun e => Resource.cycleDeltaTerm Fix.emptyState.procCache e)).sum) ∧
     (∀ e ∈ [Fix.c4proc], alookup e.pid Fix.emptyState.procCache = none →
       ∀ q, Resource.cycleOutcome Fix.emptyState.procCache e = .ok q →
         ∃ t, e.cpuTime = .ok t ∧ q.CPUTimeDelta = t) ∧
     ((∀ e ∈ [Fix.c4proc], ∀ t, e.cpuTime = .ok t →
         0 ≤ t ∧ (∀ cached, alookup e.pid Fix.emptyState.procCache = some cached →
           cached.CPUTotalTime ≤ t)) →
       0 ≤ (Resource.Refresh Fix.emptyState
          [Fix.c4proc]).2.processes.NodeCPUTimeDelta)) :=
  ⟨by decide, by decide,
    kepler_c4_amended Fix.emptyState [Fix.c4proc] (by decide) (by decide)⟩

/-- C5: at the end of a cycle, every published running container's
CPUTimeDelta equals the sum of the CPUTimeDelta of its member processes in
the published Running set (reset-then-accumulate, independent of any delta
cached from previous cycles), and the same holds for VMs over processes
attributed to them (a process with a container reference counts towards its
container, not its VM). -/
theorem kepler_c5 :
    ∀ (st : Resource.InformerState) (procs : List Resource.ProcInfo),
    ((procs.map (·.pid)).Nodup) →
    keysNodup st.procCache → keysNodup st.containerCache → keysNodup st.vmCache →
    (∀ id c, (id, c) ∈ (Resource.Refresh st procs).2.containers.Running →
      c.CPUTimeDelta = (((Resource.Refresh st procs).2.processes.Running.filter
          (fun e => decide (Resource.containerKey e.2 = some id))).map
          (fun e => e.2.CPUTimeDelta)).sum) ∧
    (∀ id v, (id, v) ∈ (Resource.Refresh st procs).2.vms.Running →
      v.CPUTimeDelta = (((Resource.Refresh st procs).2.processes.Running.filter
          (fun e => decide (Resource.vmKey e.2 = some id))).map
          (fun e => e.2.CPUTimeDelta)).sum) := by
  intro st procs hn h1 h2 h3
  have hinv := Resource.refreshLoop_inv procs (Resource.initialAcc st)
    (Resource.initialAcc_inv st h1 h2 h3) (fun e _ => List.not_mem_nil e.pid) hn
  constructor
  · intro id c hmem
    rw [Resource.Refresh_containers_Running] at hmem
    have hm2 := List.mem_of_mem_filter hmem
    have hf := List.of_mem_filter hmem
    have hseen : id ∈ (Resource.refreshAccOf st procs).containersSeen :=
      of_decide_eq_true hf
    obtain ⟨c', hlook, hsum⟩ := hinv.ctrSeen id hseen
    have hlook2 : alookup id (Resource.refreshAccOf st procs).containerCache
        = some c := alookup_eq_some_of_mem hinv.ncc hm2
    have hceq : c = c' := Option.some.inj (hlook2.symm.trans hlook)
    rw [hceq, hsum]
    unfold Resource.ctrSumOf
    rw [Resource.filterSum_eq_published, Resource.Refresh_processes_Running]
    rfl
  · intro id v hmem
    rw [Resource.Refresh_vms_Running] at hmem
    have hm2 := List.mem_of_mem_filter hmem
    have hf := List.of_mem_filter hmem
    have hseen : id ∈ (Resource.refreshAccOf st procs).vmsSeen :=
      of_decide_eq_true hf
    obtain ⟨v', hlook, hsum⟩ := hinv.vmSeen id hseen
    have hlook2 : alookup id (Resource.refreshAccOf st procs).vmCache
        = some v := alookup_eq_some_of_mem hinv.nvc hm2
    have hceq : v = v' := Option.some.inj (hlook2.symm.trans hlook)
    rw [hceq, hsum]
    unfold Resource.vmSumOf
    rw [Resource.filterSum_eq_published, Resource.Refresh_processes_Running]
    rfl

/-- C5 witness: the spec scenario — a container whose two member processes
contribute 0.4s and 0.6s (with a stale cached delta of 42 from previous
cycles) satisfies the member-sum characterisation, as does the VM member. -/
theorem kepler_c5_witness :
    ((Fix.c5procs.map (·.pid)).Nodup) ∧
    keysNodup Fix.c5st.procCache ∧
    keysNodup Fix.c5st.containerCache ∧
    keysNodup Fix.c5st.vmCache ∧
    (∀ id c, (id, c) ∈ (Resource.Refresh Fix.c5st
        Fix.c5procs).2.containers.Running →
      c.CPUTimeDelta = (((Resource.Refresh Fix.c5st
          Fix.c5procs).2.processes.Running.filter
          (fun e => decide (Resource.containerKey e.2 = some id))).map
          (fun e => e.2.CPUTimeDelta)).sum) ∧
    (∀ id v, (id, v) ∈ (Resource.Refresh Fix.c5st Fix.c5procs).2.vms.Running →
      v.CPUTimeDelta = (((Resource.Refresh Fix.c5st
          Fix.c5procs).2.processes.Running.filter
          (fun e => decide (Resource.vmKey e.2 = some id))).map
          (fun e => e.2.CPUTimeDelta)).sum) ∧
    (∃ c, alookup "c1" (Resource.Refresh Fix.c5st
        Fix.c5procs).2.containers.Running = some c ∧
      c.CPUTimeDelta = 1 ∧ c.CPUTotalTime = 10) :=
  ⟨by decide, by decide, by decide, by decide,
    (kepler_c5 Fix.c5st Fix.c5procs (by decide) (by decide) (by decide)
      (by decide)).1,
    (kepler_c5 Fix.c5st Fix.c5procs (by decide) (by decide) (by decide)
      (by decide)).2,
    ⟨⟨"c1", "web", 9 + ((2 : ℚ)/5 - 0) + ((3 : ℚ)/5 - 0),
        0 + ((2 : ℚ)/5 - 0) + ((3 : ℚ)/5 - 0)⟩,
      rfl, by norm_num, by norm_num⟩⟩

/-- C9 witness: the cache/Running agreement and Running/Terminated
disjointness at a concrete three-process cycle, checked for PID 1 and the
container and VM observed in that cycle. -/
theorem kepler_c9_witness :
    ((alookup 1 (Resource.Refresh Fix.c5st Fix.c5procs).1.procCache).isSome ↔
      (alookup 1 (Resource.Refresh Fix.c5st
          Fix.c5procs).2.processes.Running).isSome) ∧
    (¬((alookup 1 (Resource.Refresh Fix.c5st
          Fix.c5procs).2.processes.Running).isSome ∧
      (alookup 1 (Resource.Refresh Fix.c5st
          Fix.c5procs).2.processes.Terminated).isSome)) ∧
    ((alookup "c1" (Resource.Refresh Fix.c5st
          Fix.c5procs).1.containerCache).isSome ↔
      (alookup "c1" (Resource.Refresh Fix.c5st
          Fix.c5procs).2.containers.Running).isSome) ∧
    (¬((alookup "c1" (Resource.Refresh Fix.c5st
          Fix.c5procs).2.containers.Running).isSome ∧
      (alookup "c1" (Resource.Refresh Fix.c5st
          Fix.c5procs).2.containers.Terminated).isSome)) ∧
    ((alookup "v1" (Resource.Refresh Fix.c5st Fix.c5procs).1.vmCache).isSome ↔
      (alookup "v1" (Resource.Refresh Fix.c5st
          Fix.c5procs).2.vms.Running).isSome) ∧
    (¬((alookup "v1" (Resource.Refresh Fix.c5st
          Fix.c5procs).2.vms.Running).isSome ∧
      (alookup "v1" (Resource.Refresh Fix.c5st
          Fix.c5procs).2.vms.Terminated).isSome)) :=
  ⟨(kepler_c9 Fix.c5st Fix.c5procs).1 1,
   (kepler_c9 Fix.c5st Fix.c5procs).2.1 1,
   (kepler_c9 Fix.c5st Fix.c5procs).2.2.1 "c1",
   (kepler_c9 Fix.c5st Fix.c5procs).2.2.2.1 "c1",
   (kepler_c9 Fix.c5st Fix.c5procs).2.2.2.2.1 "v1",
   (kepler_c9 Fix.c5st Fix.c5procs).2.2.2.2.2 "v1"⟩
